import Mathlib

/-!
# Verification development for `src/script.js` (interactive rose field)

Shallow embedding of the procedural field generator, the hover-particle pool,
the petal pool, the per-frame field update and the final-reveal hooks.

Modelling conventions

* JavaScript numbers are modelled as exact rationals (`ℚ`); decimal literals
  are written as in the source (`1.5`, `0.02`, `0.9`, ...).  Rounding of
  `Float32Array` cells is not modelled; rounding of IEEE doubles is modelled
  only in the section on line 274, where it decides the outcome.
* `Math.random()` is an explicit stream of draws with a cursor (`Rng`); every
  call consumes one draw, in source order.
* `Math.sqrt`, `Math.cos`, `Math.sin` and `Math.PI` are parameters (`MathFns`).
* Transform matrices handed to the renderer (`dummy`, `setMatrixAt`) are the
  render boundary and are not part of the state.
* The parallel arrays `hoverData`, `hoverPos`, `hoverCol` and the position
  attribute array `hp` are one list of records, slot `i` holding
  `hoverData[i]`, `hoverPos[3i..3i+2]`, `hoverCol[3i..3i+2]`, `hp[3i..3i+2]`.
-/

namespace Rose

/-! ## Random draws and math functions -/

/-- Stream of `Math.random()` results together with the number of draws
already consumed. -/
structure Rng where
  draws : Nat → ℚ
  pos : Nat

/-- One call of `Math.random()`. -/
def Rng.next (g : Rng) : ℚ × Rng :=
  (g.draws g.pos, { draws := g.draws, pos := g.pos + 1 })

/-- The `Math` functions used by the field generator, taken as parameters. -/
structure MathFns where
  sqrt : ℚ → ℚ
  cos : ℚ → ℚ
  sin : ℚ → ℚ
  PI : ℚ

/-! ## CONFIG -/

def fieldRadius : ℚ := 220
def instanceCount : Nat := 25000
def heartScale : ℚ := 85

/-! ## Field generator (script.js lines 125-147) -/

/-- Which instanced mesh an instance is drawn by. -/
inductive Mesh where
  | redMesh
  | whiteMesh
  deriving DecidableEq, Repr

/-- One entry of the `instances` array. -/
structure Instance where
  x : ℚ
  z : ℚ
  ry : ℚ
  baseScale : ℚ
  currentScale : ℚ
  isHeart : Bool
  id : Int
  mesh : Mesh
  deriving DecidableEq

/-- Line 131, first statement: `nx = (x / CONFIG.heartScale) * 1.5`. -/
def fieldNx (x : ℚ) : ℚ := (x / heartScale) * 1.5

/-- Line 131, second statement: `ny = -(z / CONFIG.heartScale) * 1.5`. -/
def fieldNy (z : ℚ) : ℚ := -(z / heartScale) * 1.5

/-- Line 132: `val = Math.pow(nx*nx + ny*ny - 1, 3) - nx*nx*Math.pow(ny, 3)`. -/
def fieldVal (x z : ℚ) : ℚ :=
  (fieldNx x * fieldNx x + fieldNy z * fieldNy z - 1) ^ 3
    - fieldNx x * fieldNx x * (fieldNy z) ^ 3

/-- Line 133: `isHeart = val <= 0`. -/
def isHeart (x z : ℚ) : Bool := decide (fieldVal x z ≤ 0)

/-- The heart curve value written the way the specification states it:
`nx = 1.5*x/heartScale`, `ny = -1.5*z/heartScale`,
`val = (nx^2 + ny^2 - 1)^3 - nx^2 * ny^3` with `heartScale = 85`. -/
def specVal (x z : ℚ) : ℚ :=
  ((1.5 * x / 85) ^ 2 + (-1.5 * z / 85) ^ 2 - 1) ^ 3
    - (1.5 * x / 85) ^ 2 * (-1.5 * z / 85) ^ 3

/-- Category names used by the specification. -/
inductive Category where
  | Primary
  | Secondary
  deriving DecidableEq, Repr

/-- The category an `isHeart` flag stands for. -/
def categoryOf (h : Bool) : Category :=
  if h then Category.Primary else Category.Secondary

/-- Loop state of the field generation loop. -/
structure FieldState where
  redC : Nat
  whiteC : Nat
  instances : List Instance
  rng : Rng

/-- One iteration of the loop body (lines 127-145) for instance count `N`. -/
def fieldStep (M : MathFns) (N : Nat) (st : FieldState) : FieldState :=
  let d1 := st.rng.next
  let r := M.sqrt d1.1 * fieldRadius
  let d2 := d1.2.next
  let theta := d2.1 * 2 * M.PI
  let x := r * M.cos theta
  let z := r * M.sin theta
  let h := isHeart x z
  let d3 := d2.2.next
  let ry := d3.1 * M.PI * 2
  let d4 := d3.2.next
  let scale := 1.5 + d4.1 * 1.0
  let redC1 := if h then (if st.redC < N then st.redC + 1 else st.redC) else st.redC
  let whiteC1 := if h then st.whiteC else (if st.whiteC < N then st.whiteC + 1 else st.whiteC)
  { redC := redC1
    whiteC := whiteC1
    instances := st.instances ++
      [{ x := x, z := z, ry := ry, baseScale := scale, currentScale := scale,
         isHeart := h,
         id := if h then (redC1 : Int) - 1 else (whiteC1 : Int) - 1,
         mesh := if h then Mesh.redMesh else Mesh.whiteMesh }]
    rng := d4.2 }

/-- The first `k` iterations of `for (let i = 0; i < N; i++)`. -/
def fieldLoop (M : MathFns) (N : Nat) : Nat → FieldState → FieldState
  | 0, st => st
  | k + 1, st => fieldLoop M N k (fieldStep M N st)

/-- The whole generation loop, started with `redC = 0, whiteC = 0` and an
empty `instances` array. -/
def generateField (M : MathFns) (N : Nat) (rng : Rng) : FieldState :=
  fieldLoop M N N { redC := 0, whiteC := 0, instances := [], rng := rng }

/-! ## Hover particle pool (script.js lines 151-191 and 289-301) -/

def hoverCount : Nat := 600

/-- Slot `i` of the hover pool.  It holds `hoverData[i]` (`active`, `life`,
`vx`, `vy`, `vz`), the cells `hoverPos[3i], [3i+1], [3i+2]` (`px`, `py`, `pz`),
the cells `hoverCol[3i], [3i+1], [3i+2]` (`cr`, `cg`, `cb`) and the cells
`[3i], [3i+1], [3i+2]` of `hoverSystem.geometry.attributes.position.array`
(`hpx`, `hpy`, `hpz`), the array `hp` of line 286 that the renderer draws.

`hoverPos` and `hp` are two buffers: `new THREE.Float32BufferAttribute(hoverPos, 3)`
(line 155) builds its own `Float32Array` from the values `hoverPos` holds at that
moment.  The initialisation loop and `spawnHoverParticle` write `hoverPos`; the
hover update loop writes `hp`.  The colour attribute is a copy of `hoverCol` in
the same way; the code never writes it, so it is not part of the state. -/
structure HoverSlot where
  active : Bool
  life : ℚ
  vx : ℚ
  vy : ℚ
  vz : ℚ
  px : ℚ
  py : ℚ
  pz : ℚ
  cr : ℚ
  cg : ℚ
  cb : ℚ
  hpx : ℚ
  hpy : ℚ
  hpz : ℚ
  deriving DecidableEq

/-- A slot after start-up: `hoverPos` and `hoverCol` are created zero-filled
(lines 153-154), the position attribute copies `hoverPos` while it is still
zero-filled (line 155), then the loop of lines 165-168 sets `hoverData[i]` and
writes `0, -500, 0` into `hoverPos`. -/
def hoverSlotInit : HoverSlot :=
  { active := false, life := 0, vx := 0, vy := 0, vz := 0,
    px := 0, py := -500, pz := 0, cr := 0, cg := 0, cb := 0,
    hpx := 0, hpy := 0, hpz := 0 }

/-- The pool after the initialisation loop (lines 164-168). -/
def hoverInit : List HoverSlot := List.replicate hoverCount hoverSlotInit

/-- Body of the `if (!hoverData[i].active)` branch (lines 173-187) for the slot
`s`; the six draws are taken in source order.  The cells of `hp` are not
written. -/
def activateSlot (s : HoverSlot) (x y z : ℚ) (heart : Bool) (rng : Rng) :
    HoverSlot × Rng :=
  let d1 := rng.next
  let d2 := d1.2.next
  let d3 := d2.2.next
  let d4 := d3.2.next
  let d5 := d4.2.next
  let d6 := d5.2.next
  ({ s with
     active := true, life := 1.0,
     px := x + (d1.1 - 0.5) * 1.0,
     py := y + d2.1,
     pz := z + (d3.1 - 0.5) * 1.0,
     cr := 1.0,
     cg := if heart then 0.2 else 0.9,
     cb := 0.5,
     vx := (d4.1 - 0.5) * 0.1,
     vy := d5.1 * 0.15 + 0.1,
     vz := (d6.1 - 0.5) * 0.1 }, d6.2)

/-- The scan `for (i ...; i < hoverCount; i++)` of `spawnHoverParticle`, with
`n` indices left to visit and the slots not yet visited.  The pool always
holds `hoverCount` slots; an index past the end of the list is left alone. -/
def spawnScan (x y z : ℚ) (heart : Bool) :
    Nat → List HoverSlot → Rng → List HoverSlot × Rng
  | 0, pool, rng => (pool, rng)
  | _ + 1, [], rng => ([], rng)
  | n + 1, s :: rest, rng =>
      if s.active = false then
        ((activateSlot s x y z heart rng).1 :: rest, (activateSlot s x y z heart rng).2)
      else
        (s :: (spawnScan x y z heart n rest rng).1, (spawnScan x y z heart n rest rng).2)

/-- Function `spawnHoverParticle(x, y, z, isHeart)` (lines 170-191). -/
def spawnHoverParticle (x y z : ℚ) (heart : Bool) (pool : List HoverSlot) (rng : Rng) :
    List HoverSlot × Rng :=
  spawnScan x y z heart hoverCount pool rng

/-- Body of the hover update loop for one slot (lines 290-300); the position
cells it writes are those of `hp`. -/
def tickSlot (s : HoverSlot) : HoverSlot :=
  if s.active = true then
    if s.life - 0.02 ≤ 0 then
      { s with life := s.life - 0.02, active := false, hpy := -500 }
    else
      { s with life := s.life - 0.02,
               hpx := s.hpx + s.vx, hpy := s.hpy + s.vy, hpz := s.hpz + s.vz }
  else s

/-- The loop `for (i ...; i < hoverCount; i++)` of the hover update. -/
def tickScan : Nat → List HoverSlot → List HoverSlot
  | 0, pool => pool
  | _ + 1, [] => []
  | n + 1, s :: rest => tickSlot s :: tickScan n rest

/-- One hover tick (lines 289-301). -/
def hoverTick (pool : List HoverSlot) : List HoverSlot := tickScan hoverCount pool

/-- Number of active slots. -/
def activeCount (pool : List HoverSlot) : Nat :=
  (pool.filter (fun s => s.active)).length

/-- One pool operation: a call of `spawnHoverParticle` or a hover tick. -/
inductive HoverOp where
  | spawn (x y z : ℚ) (heart : Bool)
  | tick

/-- Run one pool operation. -/
def runHoverOp (op : HoverOp) (st : List HoverSlot × Rng) : List HoverSlot × Rng :=
  match op with
  | HoverOp.spawn x y z heart => spawnHoverParticle x y z heart st.1 st.2
  | HoverOp.tick => (hoverTick st.1, st.2)

/-- Run a sequence of pool operations, first to last. -/
def runHoverOps : List HoverOp → List HoverSlot × Rng → List HoverSlot × Rng
  | [], st => st
  | op :: ops, st => runHoverOps ops (runHoverOp op st)

/-- Number of ticks in a sequence of pool operations. -/
def tickCount : List HoverOp → Nat
  | [] => 0
  | HoverOp.tick :: ops => tickCount ops + 1
  | HoverOp.spawn _ _ _ _ :: ops => tickCount ops

/-! ## Petals (script.js lines 194-210 and 305-314) -/

def petalCount : Nat := 800

/-- One entry of the `petals` array. -/
structure Petal where
  x : ℚ
  y : ℚ
  z : ℚ
  vy : ℚ
  rx : ℚ
  rz : ℚ
  rotSpeed : ℚ
  isRed : Bool
  idx : Nat
  deriving DecidableEq

/-- The object pushed for index `i` (lines 205-209); seven draws in source
order. -/
def petalNew (M : MathFns) (i : Nat) (rng : Rng) : Petal × Rng :=
  let d1 := rng.next
  let d2 := d1.2.next
  let d3 := d2.2.next
  let d4 := d3.2.next
  let d5 := d4.2.next
  let d6 := d5.2.next
  let d7 := d6.2.next
  ({ x := (d1.1 - 0.5) * 300, y := d2.1 * 100 + 10, z := (d3.1 - 0.5) * 300,
     vy := d4.1 * 0.2 + 0.1, rx := d5.1 * M.PI, rz := d6.1 * M.PI,
     rotSpeed := (d7.1 - 0.5) * 0.1, isRed := decide (i % 2 = 0), idx := i / 2 }, d7.2)

/-- The petal initialisation loop from index `i`, with `k` iterations left. -/
def petalInitLoop (M : MathFns) : Nat → Nat → List Petal → Rng → List Petal × Rng
  | 0, _, acc, rng => (acc, rng)
  | k + 1, i, acc, rng =>
      petalInitLoop M k (i + 1) (acc ++ [(petalNew M i rng).1]) (petalNew M i rng).2

/-- The `petals` array after lines 203-210. -/
def petalsInit (M : MathFns) (rng : Rng) : List Petal × Rng :=
  petalInitLoop M petalCount 0 [] rng

/-- Body of the petal loop for one petal (lines 307-308). -/
def petalStep (p : Petal) (rng : Rng) : Petal × Rng :=
  if p.y - p.vy < 0 then
    ({ p with y := 100,
              rx := p.rx + p.rotSpeed, rz := p.rz + p.rotSpeed,
              x := (rng.next.1 - 0.5) * 300,
              z := (rng.next.2.next.1 - 0.5) * 300 }, rng.next.2.next.2)
  else
    ({ p with y := p.y - p.vy,
              rx := p.rx + p.rotSpeed, rz := p.rz + p.rotSpeed }, rng)

/-- The petal loop `for (i ...; i < petals.length; i++)` (lines 305-314). -/
def petalTick : List Petal → Rng → List Petal × Rng
  | [], rng => ([], rng)
  | p :: rest, rng =>
      ((petalStep p rng).1 :: (petalTick rest (petalStep p rng).2).1,
       (petalTick rest (petalStep p rng).2).2)

/-! ## Interaction probe and field update (script.js lines 242-281) -/

/-- A `THREE.Vector3`. -/
structure Vec3 where
  x : ℚ
  y : ℚ
  z : ℚ
  deriving DecidableEq

/-- Method `lengthSq()` of a vector. -/
def Vec3.lengthSq (v : Vec3) : ℚ := v.x * v.x + v.y * v.y + v.z * v.z

/-- Lines 244-245.  `intersectPoint` is created as `new THREE.Vector3()`, the
zero vector; `raycaster.ray.intersectPlane(groundPlane, intersectPoint)` writes
the meeting point into it when the ray meets the plane (`hit = some p`) and
leaves it untouched when the call yields no point (`hit = none`).  The value
the call returns is not used by the source. -/
def intersectPoint (hit : Option Vec3) : Vec3 :=
  match hit with
  | some p => p
  | none => { x := 0, y := 0, z := 0 }

/-- Line 246: `hasIntersect = intersectPoint.lengthSq() < fieldRadius^2 * 2`. -/
def hasIntersect (hit : Option Vec3) : Bool :=
  decide ((intersectPoint hit).lengthSq < fieldRadius * fieldRadius * 2)

/-- Result of lines 256-272 for one instance. -/
structure Swell where
  targetScale : ℚ
  pool : List HoverSlot
  rng : Rng

/-- Lines 256-272: target scale of one instance, with the chance to emit a
hover particle. -/
def swell (hasI : Bool) (p : Vec3) (data : Instance) (pool : List HoverSlot) (rng : Rng) :
    Swell :=
  if hasI = true then
    if (data.x - p.x) * (data.x - p.x) + (data.z - p.z) * (data.z - p.z) < 625 then
      if rng.next.1 < 0.05 then
        { targetScale := data.baseScale * 1.3,
          pool := (spawnHoverParticle data.x 2.0 data.z data.isHeart pool rng.next.2).1,
          rng := (spawnHoverParticle data.x 2.0 data.z data.isHeart pool rng.next.2).2 }
      else
        { targetScale := data.baseScale * 1.3, pool := pool, rng := rng.next.2 }
    else
      { targetScale := data.baseScale, pool := pool, rng := rng }
  else
    { targetScale := data.baseScale, pool := pool, rng := rng }

/-- Lines 256-264 without the particle emission: the value of `targetScale`. -/
def targetScale (hasI : Bool) (p : Vec3) (data : Instance) : ℚ :=
  if hasI = true then
    if (data.x - p.x) * (data.x - p.x) + (data.z - p.z) * (data.z - p.z) < 625 then
      data.baseScale * 1.3
    else data.baseScale
  else data.baseScale

/-- Line 274: `data.currentScale = data.currentScale * 0.9 + targetScale * 0.1`. -/
def ease (data : Instance) (target : ℚ) : Instance :=
  { data with currentScale := data.currentScale * 0.9 + target * 0.1 }

/-- The field update loop (lines 249-281) over the instances not yet visited. -/
def updateField (hasI : Bool) (p : Vec3) :
    List Instance → List HoverSlot → Rng → List Instance × List HoverSlot × Rng
  | [], pool, rng => ([], pool, rng)
  | data :: rest, pool, rng =>
      let u := swell hasI p data pool rng
      let r := updateField hasI p rest u.pool u.rng
      (ease data u.targetScale :: r.1, r.2.1, r.2.2)

/-- The simulation state read and written by `animate`. -/
structure Scene where
  instances : List Instance
  hoverData : List HoverSlot
  petals : List Petal
  rng : Rng

/-- One call of `animate()` (lines 236-315), given what the plane-intersection
call yields in this frame.  The firefly drift and the rotation of the final
model do not touch the state modelled here. -/
def animate (hit : Option Vec3) (st : Scene) : Scene :=
  let f := updateField (hasIntersect hit) (intersectPoint hit) st.instances st.hoverData st.rng
  let pt := petalTick st.petals f.2.2
  { instances := f.1, hoverData := hoverTick f.2.1, petals := pt.1, rng := pt.2 }

/-! ## Final reveal (script.js lines 348-399) -/

/-- Kinds of object the reveal adds to the scene. -/
inductive ObjKind where
  | finalModel
  | finalText
  | spotLight
  | backLight
  deriving DecidableEq, Repr

/-- A scene child: its kind and the identity of the JavaScript object. -/
structure SceneObj where
  kind : ObjKind
  uid : Nat
  deriving DecidableEq, Repr

/-- State the reveal hooks read and write.  Running tweens, outstanding loads
and timers are counted; each is completed by its own event below. -/
structure Reveal where
  preloadedRose : Bool
  preloadedFont : Bool
  children : List SceneObj
  finalRoseMesh : Option Nat
  cameraTweens : Nat
  modelLoads : Nat
  fontLoads : Nat
  buttonTimers : Nat
  nextUid : Nat
  deriving DecidableEq, Repr

/-- State before any hook has run. -/
def revealInit (rose font : Bool) : Reveal :=
  { preloadedRose := rose, preloadedFont := font, children := [], finalRoseMesh := none,
    cameraTweens := 0, modelLoads := 0, fontLoads := 0, buttonTimers := 0, nextUid := 0 }

/-- Function `setupFinalModel(model)` (lines 389-399) for a model object with a
fresh identity: `scene.add(model)`, `finalRoseMesh = model`, two lights added,
the button timer started. -/
def setupFinalModel (st : Reveal) : Reveal :=
  { st with
    children := st.children ++
      [{ kind := ObjKind.finalModel, uid := st.nextUid },
       { kind := ObjKind.spotLight, uid := st.nextUid + 1 },
       { kind := ObjKind.backLight, uid := st.nextUid + 2 }]
    finalRoseMesh := some st.nextUid
    buttonTimers := st.buttonTimers + 1
    nextUid := st.nextUid + 3 }

/-- Function `create3DText(font)` (lines 377-387): a new text mesh is added. -/
def create3DText (st : Reveal) : Reveal :=
  { st with
    children := st.children ++ [{ kind := ObjKind.finalText, uid := st.nextUid }]
    nextUid := st.nextUid + 1 }

/-- Function `load3DText()` (lines 368-375). -/
def load3DText (st : Reveal) : Reveal :=
  if st.preloadedFont = true then create3DText st
  else { st with fontLoads := st.fontLoads + 1 }

/-- Function `spawnFinalRose()` (lines 353-366): the preloaded model is cloned
and set up (line 360, with the source comment "Clone to be safe, though used
once"), or a fallback load is issued. -/
def spawnFinalRose (st : Reveal) : Reveal :=
  if (load3DText st).preloadedRose = true then setupFinalModel (load3DText st)
  else { load3DText st with modelLoads := (load3DText st).modelLoads + 1 }

/-- Hook `window.triggerFinalReveal()` (lines 348-351): starts the camera tween
whose `onComplete` is `spawnFinalRose`. -/
def triggerFinalReveal (st : Reveal) : Reveal :=
  { st with cameraTweens := st.cameraTweens + 1 }

/-- A running camera tween completes and calls `spawnFinalRose`. -/
def cameraComplete (st : Reveal) : Reveal :=
  if st.cameraTweens = 0 then st
  else spawnFinalRose { st with cameraTweens := st.cameraTweens - 1 }

/-- An outstanding fallback model load completes: its callback (line 364) calls
`setupFinalModel(gltf.scene)`. -/
def modelLoadComplete (st : Reveal) : Reveal :=
  if st.modelLoads = 0 then st
  else setupFinalModel { st with modelLoads := st.modelLoads - 1 }

/-- An outstanding fallback font load completes: its callback is `create3DText`. -/
def fontLoadComplete (st : Reveal) : Reveal :=
  if st.fontLoads = 0 then st
  else create3DText { st with fontLoads := st.fontLoads - 1 }

/-- A call of `triggerFinalReveal()` followed by the completion of its camera
transition and of the loads it issued. -/
def revealCall (st : Reveal) : Reveal :=
  fontLoadComplete (modelLoadComplete (cameraComplete (triggerFinalReveal st)))

/-- The given number of calls of `triggerFinalReveal()`, each run to completion. -/
def revealCalls : Nat → Reveal → Reveal
  | 0, st => st
  | n + 1, st => revealCalls n (revealCall st)

/-- Identities of the highlighted models among the scene children, in the order
they were added. -/
def modelUids (st : Reveal) : List Nat :=
  (st.children.filter (fun o => o.kind = ObjKind.finalModel)).map (fun o => o.uid)

/-- Number of highlighted models among the scene children. -/
def modelCount (st : Reveal) : Nat :=
  (st.children.filter (fun o => o.kind = ObjKind.finalModel)).length

/-- Every draw of the stream lies in `[0, 1)`, the range of `Math.random()`. -/
def Rng.inUnit (g : Rng) : Prop := ∀ n : Nat, 0 ≤ g.draws n ∧ g.draws n < 1

/-- The stream after `n` further calls of `Math.random()`. -/
def Rng.skip (g : Rng) (n : Nat) : Rng := { draws := g.draws, pos := g.pos + n }

/-- Whether the next tick recycles the petal: `p.y < 0` after `p.y -= p.vy`. -/
def recycles (p : Petal) : Bool := decide (p.y - p.vy < 0)

/-- Number of petals of the list that the next tick recycles. -/
def recycleCount (petals : List Petal) : Nat := (petals.filter recycles).length

/-- The given number of petal ticks, one after the other. -/
def petalTicks : Nat → List Petal × Rng → List Petal × Rng
  | 0, st => st
  | n + 1, st => petalTicks n (petalTick st.1 st.2)

/-- A sequence of frames: `animate` called once per entry, first to last, each
entry being what the plane-intersection call yields in that frame. -/
def animateFrames : List (Option Vec3) → Scene → Scene
  | [], st => st
  | hit :: hits, st => animateFrames hits (animate hit st)

/-- The scene right after start-up: the instances the field generator stored,
with any hover pool, petals and random stream. -/
def sceneOfField (M : MathFns) (N : Nat) (rng : Rng) (pool : List HoverSlot)
    (petals : List Petal) (g : Rng) : Scene :=
  { instances := (generateField M N rng).instances, hoverData := pool, petals := petals,
    rng := g }

/-! ## Line 274 on IEEE doubles

The definitions above compute with exact rationals.  The definitions below
repeat the arithmetic of lines 135, 264 and 274 with the rounding of JavaScript
numbers (IEEE-754 binary64, round to nearest, ties to even), for positive values
in the normal range. -/

/-- A positive double in the normal range: the value `m * 2^e` with
`2^52 <= m < 2^53`. -/
structure Dbl where
  m : Nat
  e : Int
  deriving DecidableEq, Repr

/-- The exact value of a double. -/
def Dbl.toRat (d : Dbl) : ℚ := (d.m : ℚ) * (2 : ℚ) ^ d.e

/-- Number of binary digits of `n`, for `n` below `2^fuel`. -/
def bitLen : Nat → Nat → Nat
  | 0, _ => 0
  | f + 1, n => if n = 0 then 0 else bitLen f (n / 2) + 1

/-- The exponent of the leading bit of `n`, for `0 < n < 2^200`. -/
def ilog2 (n : Nat) : Nat := bitLen 200 n - 1

/-- The double nearest to the exact value `n * 2^e` (`0 < n < 2^200`): the value
is kept when it has at most 53 significant bits, otherwise the low bits are
dropped with round-to-nearest, ties to even. -/
def Dbl.round (n : Nat) (e : Int) : Dbl :=
  if ilog2 n ≤ 52 then
    { m := n * 2 ^ (52 - ilog2 n), e := e - ((52 - ilog2 n : Nat) : Int) }
  else
    let k := ilog2 n - 52
    let q := n / 2 ^ k
    let r := n % 2 ^ k
    let q1 := if r < 2 ^ (k - 1) then q
              else if 2 ^ (k - 1) < r then q + 1
              else if q % 2 = 0 then q else q + 1
    if q1 = 2 ^ 53 then { m := 2 ^ 52, e := e + (k : Int) + 1 }
    else { m := q1, e := e + (k : Int) }

/-- The product `a * b` of two doubles: the exact product, rounded. -/
def Dbl.mul (a b : Dbl) : Dbl := Dbl.round (a.m * b.m) (a.e + b.e)

/-- The sum `a + b` of two doubles: the exact sum, rounded. -/
def Dbl.add (a b : Dbl) : Dbl :=
  Dbl.round (a.m * 2 ^ (a.e - min a.e b.e).toNat + b.m * 2 ^ (b.e - min a.e b.e).toNat)
    (min a.e b.e)

/-- The literal `0.9` as a double. -/
def d0_9 : Dbl := { m := 8106479329266893, e := -53 }

/-- The literal `0.1` as a double. -/
def d0_1 : Dbl := { m := 7205759403792794, e := -56 }

/-- The literal `1.3` as a double. -/
def d1_3 : Dbl := { m := 5854679515581645, e := -52 }

/-- The literal `1.5` as a double. -/
def d1_5 : Dbl := { m := 6755399441055744, e := -52 }

/-- The literal `1.0` as a double. -/
def d1_0 : Dbl := { m := 4503599627370496, e := -52 }

/-- Line 135 on doubles: `scale = 1.5 + Math.random() * 1.0` for the draw `u`. -/
def scaleD (u : Dbl) : Dbl := Dbl.add d1_5 (Dbl.mul u d1_0)

/-- Line 264 on doubles: `targetScale = data.baseScale * 1.3`. -/
def swellTargetD (baseScale : Dbl) : Dbl := Dbl.mul baseScale d1_3

/-- Line 274 on doubles: `data.currentScale * 0.9 + targetScale * 0.1`, each
product and then the sum rounded. -/
def easeD (currentScale target : Dbl) : Dbl :=
  Dbl.add (Dbl.mul currentScale d0_9) (Dbl.mul target d0_1)

/-- The `currentScale` of an instance after `n` successive frames in each of
which it lies inside the swell radius of the cursor point, starting from
`currentScale` as given. -/
def swellFramesD (baseScale : Dbl) : Nat → Dbl → Dbl
  | 0, currentScale => currentScale
  | n + 1, currentScale =>
      swellFramesD baseScale n (easeD currentScale (swellTargetD baseScale))

/-- The draw `u` (about `0.55`, a multiple of `2^-53` below `1`) for which line
135 gives the double nearest to `2.05`. -/
def drawD : Dbl := { m := 4953959590107544, e := -53 }

/-- The double nearest to `2.05`. -/
def base205 : Dbl := { m := 4616189618054758, e := -51 }

/-! ## Concrete inputs used to instantiate the theorems -/

/-- Math functions of a small test double. -/
def mathZero : MathFns :=
  { sqrt := fun q => q, cos := fun _ => 0, sin := fun _ => 0, PI := 3 }

/-- The stream whose every draw is `0`. -/
def rngZero : Rng := { draws := fun _ => 0, pos := 0 }

/-- The instance the generator stores for draws that are all `0`. -/
def instZero : Instance :=
  { x := 0, z := 0, ry := 0, baseScale := 1.5, currentScale := 1.5,
    isHeart := true, id := 0, mesh := Mesh.redMesh }

/-- The stream whose first draw is `0.25` and whose later draws are `0.75`. -/
def rngSteps : Rng := { draws := fun n => if n = 0 then 0.25 else 0.75, pos := 0 }

/-- A petal that the next tick recycles (`y - vy < 0`). -/
def petalLow : Petal :=
  { x := 0, y := 0, z := 0, vy := 1, rx := 0, rz := 0, rotSpeed := 0, isRed := true, idx := 0 }

/-- The ground point at the field centre. -/
def origin : Vec3 := { x := 0, y := 0, z := 0 }

/-- A scene with one instance at the field centre, the initial hover pool and
no petals. -/
def sceneZero : Scene :=
  { instances := [instZero], hoverData := hoverInit, petals := [], rng := rngZero }

/-! ## Invariants used by the proofs -/

/-- Invariant of the field generation loop: the two counters add up to the
number of stored instances, every stored id lies inside its own batch, ids are
pairwise different within a category, and each record is consistent with the
classification of its own point. -/
def FieldInv (st : FieldState) : Prop :=
  st.redC + st.whiteC = st.instances.length ∧
  (∀ d ∈ st.instances, d.isHeart = true → 0 ≤ d.id ∧ d.id < (st.redC : Int)) ∧
  (∀ d ∈ st.instances, d.isHeart = false → 0 ≤ d.id ∧ d.id < (st.whiteC : Int)) ∧
  st.instances.Pairwise (fun a b => a.isHeart = b.isHeart → a.id ≠ b.id) ∧
  (∀ d ∈ st.instances, d.isHeart = isHeart d.x d.z)

/-! ## Field generator: proofs -/

theorem fieldVal_eq_specVal (x z : ℚ) : fieldVal x z = specVal x z := by
  unfold fieldVal specVal fieldNx fieldNy heartScale
  ring

theorem fieldInv_init (rng : Rng) :
    FieldInv { redC := 0, whiteC := 0, instances := [], rng := rng } := by
  simp [FieldInv]

theorem fieldStep_length (M : MathFns) (N : Nat) (st : FieldState) :
    (fieldStep M N st).instances.length = st.instances.length + 1 := by
  simp [fieldStep]

theorem fieldInv_step (M : MathFns) (N : Nat) (st : FieldState)
    (hinv : FieldInv st) (hlt : st.instances.length < N) :
    FieldInv (fieldStep M N st) := by
  obtain ⟨hsum, hred, hwhite, hpair, hcls⟩ := hinv
  have hr : st.redC < N := by omega
  have hw : st.whiteC < N := by omega
  cases hh : isHeart
      (M.sqrt st.rng.next.1 * fieldRadius * M.cos (st.rng.next.2.next.1 * 2 * M.PI))
      (M.sqrt st.rng.next.1 * fieldRadius * M.sin (st.rng.next.2.next.1 * 2 * M.PI))
  · -- Secondary point: `whiteC` advances
    refine ⟨?_, ?_, ?_, ?_, ?_⟩
    · simp [fieldStep, hh, hw]; omega
    · intro d hd hdh
      simp only [fieldStep, hh, List.mem_append, List.mem_singleton] at hd
      rcases hd with hd | hd
      · simpa [fieldStep, hh] using hred d hd hdh
      · subst hd; simp at hdh
    · intro d hd hdh
      simp only [fieldStep, hh, List.mem_append, List.mem_singleton] at hd
      rcases hd with hd | hd
      · have := hwhite d hd hdh
        simp [fieldStep, hh, hw]; omega
      · subst hd; simp [fieldStep, hh, hw]
    · simp only [fieldStep, hh, List.pairwise_append, List.pairwise_singleton,
        List.mem_singleton]
      refine ⟨hpair, trivial, ?_⟩
      intro a ha b hb hab
      subst hb
      have := hwhite a ha (by simpa using hab)
      simp [hw]; omega
    · intro d hd
      simp only [fieldStep, hh, List.mem_append, List.mem_singleton] at hd
      rcases hd with hd | hd
      · exact hcls d hd
      · subst hd; simp [hh]
  · -- Primary point: `redC` advances
    refine ⟨?_, ?_, ?_, ?_, ?_⟩
    · simp [fieldStep, hh, hr]; omega
    · intro d hd hdh
      simp only [fieldStep, hh, List.mem_append, List.mem_singleton] at hd
      rcases hd with hd | hd
      · have := hred d hd hdh
        simp [fieldStep, hh, hr]; omega
      · subst hd; simp [fieldStep, hh, hr]
    · intro d hd hdh
      simp only [fieldStep, hh, List.mem_append, List.mem_singleton] at hd
      rcases hd with hd | hd
      · simpa [fieldStep, hh] using hwhite d hd hdh
      · subst hd; simp at hdh
    · simp only [fieldStep, hh, List.pairwise_append, List.pairwise_singleton,
        List.mem_singleton]
      refine ⟨hpair, trivial, ?_⟩
      intro a ha b hb hab
      subst hb
      have := hred a ha (by simpa using hab)
      simp [hr]; omega
    · intro d hd
      simp only [fieldStep, hh, List.mem_append, List.mem_singleton] at hd
      rcases hd with hd | hd
      · exact hcls d hd
      · subst hd; simp [hh]

theorem fieldInv_loop (M : MathFns) (N : Nat) :
    ∀ (k : Nat) (st : FieldState), FieldInv st → st.instances.length + k ≤ N →
      FieldInv (fieldLoop M N k st) ∧
      (fieldLoop M N k st).instances.length = st.instances.length + k := by
  intro k
  induction k with
  | zero => intro st hinv _; exact ⟨hinv, rfl⟩
  | succ k ih =>
    intro st hinv hle
    have hstep := fieldInv_step M N st hinv (by omega)
    have hlen := fieldStep_length M N st
    obtain ⟨h1, h2⟩ := ih (fieldStep M N st) hstep (by omega)
    refine ⟨h1, ?_⟩
    simp only [fieldLoop]
    omega

theorem fieldInv_generate (M : MathFns) (N : Nat) (rng : Rng) :
    FieldInv (generateField M N rng) ∧ (generateField M N rng).instances.length = N := by
  have h := fieldInv_loop M N N { redC := 0, whiteC := 0, instances := [], rng := rng }
    (fieldInv_init rng) (by simp)
  simpa [generateField] using h

theorem generate_one_zero :
    (generateField mathZero 1 rngZero).instances = [instZero] := by
  norm_num [generateField, fieldLoop, fieldStep, mathZero, rngZero, Rng.next, instZero,
    isHeart, fieldVal, fieldNx, fieldNy, heartScale, fieldRadius]

/-- C1: the field generator classifies a point `(x, z)` as Primary
(`isHeart = true`) exactly when `val <= 0`, with `nx = 1.5*x/85`,
`ny = -1.5*z/85` and `val = (nx^2 + ny^2 - 1)^3 - nx^2 * ny^3`, and as Secondary
otherwise; the flag stored with every generated instance is this function of
the instance's own `(x, z)`; the boundary point `x = 0, z = 170/3` has
`nx = 0`, `ny = -1`, `val = 0` and is Primary. -/
theorem C1_field_classification :
    (∀ x z : ℚ,
      fieldNx x = 1.5 * x / 85 ∧ fieldNy z = -1.5 * z / 85 ∧
      fieldVal x z = specVal x z ∧
      (isHeart x z = true ↔ specVal x z ≤ 0) ∧
      (categoryOf (isHeart x z) = Category.Primary ↔ specVal x z ≤ 0) ∧
      (categoryOf (isHeart x z) = Category.Secondary ↔ ¬ specVal x z ≤ 0)) ∧
    (∀ (M : MathFns) (N : Nat) (rng : Rng) (d : Instance),
      d ∈ (generateField M N rng).instances →
        (d.isHeart = true ↔ specVal d.x d.z ≤ 0)) ∧
    fieldNx 0 = 0 ∧ fieldNy (170 / 3) = -1 ∧ specVal 0 (170 / 3) = 0 ∧
    categoryOf (isHeart 0 (170 / 3)) = Category.Primary := by
  have hiff : ∀ x z : ℚ, isHeart x z = true ↔ specVal x z ≤ 0 := by
    intro x z
    simp [isHeart, fieldVal_eq_specVal]
  refine ⟨?_, ?_, ?_, ?_, ?_, ?_⟩
  · intro x z
    refine ⟨?_, ?_, fieldVal_eq_specVal x z, hiff x z, ?_, ?_⟩
    · unfold fieldNx heartScale; ring
    · unfold fieldNy heartScale; ring
    · rw [← hiff x z]; cases isHeart x z <;> simp [categoryOf]
    · rw [← hiff x z]; cases isHeart x z <;> simp [categoryOf]
  · intro M N rng d hd
    rw [(fieldInv_generate M N rng).1.2.2.2.2 d hd]
    exact hiff d.x d.z
  · norm_num [fieldNx]
  · norm_num [fieldNy, heartScale]
  · norm_num [specVal]
  · have h : isHeart 0 (170 / 3) = true := (hiff 0 (170 / 3)).2 (by norm_num [specVal])
    simp [h, categoryOf]

/-- C1 instantiated at the generator run with one instance and all draws `0`:
the stored instance at the field centre is Primary and its `val` is `-1`. -/
theorem C1_field_classification_witness :
    instZero ∈ (generateField mathZero 1 rngZero).instances ∧
    (instZero.isHeart = true ↔ specVal instZero.x instZero.z ≤ 0) :=
  ⟨by simp [generate_one_zero],
   C1_field_classification.2.1 mathZero 1 rngZero instZero (by simp [generate_one_zero])⟩

/-- C2: after the field generation loop has run for any instance count `N` and
any random draws, every stored instance has a slot id with
`0 <= id < redC` (Primary) or `0 <= id < whiteC` (Secondary), two instances at
different positions of the store and of the same category have different ids,
and `redC <= N`, `whiteC <= N`, `redC + whiteC <= N`. -/
theorem C2_instance_store (M : MathFns) (N : Nat) (rng : Rng) :
    (∀ d ∈ (generateField M N rng).instances,
      0 ≤ d.id ∧
      d.id < (if d.isHeart = true then ((generateField M N rng).redC : Int)
              else ((generateField M N rng).whiteC : Int))) ∧
    (∀ (i j : Nat) (hi : i < (generateField M N rng).instances.length)
        (hj : j < (generateField M N rng).instances.length), i ≠ j →
      ((generateField M N rng).instances.get ⟨i, hi⟩).isHeart
        = ((generateField M N rng).instances.get ⟨j, hj⟩).isHeart →
      ((generateField M N rng).instances.get ⟨i, hi⟩).id
        ≠ ((generateField M N rng).instances.get ⟨j, hj⟩).id) ∧
    (generateField M N rng).redC ≤ N ∧
    (generateField M N rng).whiteC ≤ N ∧
    (generateField M N rng).redC + (generateField M N rng).whiteC ≤ N := by
  obtain ⟨⟨hsum, hred, hwhite, hpair, _⟩, hlen⟩ := fieldInv_generate M N rng
  refine ⟨?_, ?_, by omega, by omega, by omega⟩
  · intro d hd
    cases hh : d.isHeart
    · simpa using hwhite d hd hh
    · simpa using hred d hd hh
  · intro i j hi hj hij hcat
    rw [List.pairwise_iff_get] at hpair
    rcases Nat.lt_or_gt_of_ne hij with h | h
    · exact hpair ⟨i, hi⟩ ⟨j, hj⟩ h hcat
    · exact fun he => hpair ⟨j, hj⟩ ⟨i, hi⟩ h hcat.symm he.symm

/-- C2 instantiated at the generator run with one instance and all draws `0`:
the stored instance has id `0`, below `redC = 1`. -/
theorem C2_instance_store_witness :
    instZero ∈ (generateField mathZero 1 rngZero).instances ∧
    (0 ≤ instZero.id ∧
      instZero.id < (if instZero.isHeart = true
        then ((generateField mathZero 1 rngZero).redC : Int)
        else ((generateField mathZero 1 rngZero).whiteC : Int))) :=
  ⟨by simp [generate_one_zero],
   (C2_instance_store mathZero 1 rngZero).1 instZero (by simp [generate_one_zero])⟩

/-! ## Hover pool: proofs -/

theorem activateSlot_active (s : HoverSlot) (x y z : ℚ) (heart : Bool) (rng : Rng) :
    (activateSlot s x y z heart rng).1.active = true := rfl

theorem activateSlot_life (s : HoverSlot) (x y z : ℚ) (heart : Bool) (rng : Rng) :
    (activateSlot s x y z heart rng).1.life = 1 := by
  norm_num [activateSlot]

theorem activeCount_nil : activeCount [] = 0 := rfl

theorem activeCount_cons (s : HoverSlot) (rest : List HoverSlot) :
    activeCount (s :: rest) = (if s.active = true then 1 else 0) + activeCount rest := by
  unfold activeCount
  by_cases h : s.active = true
  · simp [List.filter_cons, h]; omega
  · simp [List.filter_cons, h]

theorem activeCount_le_length (pool : List HoverSlot) : activeCount pool ≤ pool.length := by
  induction pool with
  | nil => simp [activeCount_nil]
  | cons s rest ih =>
    rw [activeCount_cons]
    by_cases h : s.active = true <;> simp [h] <;> omega

theorem activeCount_eq_length (pool : List HoverSlot) (h : activeCount pool = pool.length) :
    ∀ s ∈ pool, s.active = true := by
  induction pool with
  | nil => intro s hs; simp at hs
  | cons a rest ih =>
    rw [activeCount_cons] at h
    have hle := activeCount_le_length rest
    by_cases ha : a.active = true
    · simp [ha] at h
      intro s hs
      rcases List.mem_cons.1 hs with rfl | hs
      · exact ha
      · exact ih (by omega) s hs
    · simp [ha] at h
      omega

theorem spawnScan_length (x y z : ℚ) (heart : Bool) :
    ∀ (n : Nat) (pool : List HoverSlot) (rng : Rng),
      (spawnScan x y z heart n pool rng).1.length = pool.length := by
  intro n
  induction n with
  | zero => intro pool rng; simp [spawnScan]
  | succ n ih =>
    intro pool rng
    cases pool with
    | nil => simp [spawnScan]
    | cons s rest =>
      by_cases h : s.active = false
      · simp [spawnScan, h]
      · simp [spawnScan, h, ih]

theorem spawnScan_full (x y z : ℚ) (heart : Bool) :
    ∀ (n : Nat) (pool : List HoverSlot) (rng : Rng),
      (∀ s ∈ pool, s.active = true) → spawnScan x y z heart n pool rng = (pool, rng) := by
  intro n
  induction n with
  | zero => intro pool rng _; simp [spawnScan]
  | succ n ih =>
    intro pool rng hall
    cases pool with
    | nil => simp [spawnScan]
    | cons s rest =>
      have hs : s.active = true := hall s (List.mem_cons_self _ _)
      have hrest := ih rest rng (fun t ht => hall t (List.mem_cons_of_mem _ ht))
      simp [spawnScan, hs, hrest]

theorem spawnScan_count (x y z : ℚ) (heart : Bool) :
    ∀ (n : Nat) (pool : List HoverSlot) (rng : Rng), pool.length ≤ n →
      activeCount (spawnScan x y z heart n pool rng).1
        = if activeCount pool < pool.length then activeCount pool + 1 else activeCount pool := by
  intro n
  induction n with
  | zero =>
    intro pool rng hle
    have : pool = [] := List.length_eq_zero.1 (by omega)
    subst this
    simp [spawnScan, activeCount_nil]
  | succ n ih =>
    intro pool rng hle
    cases pool with
    | nil => simp [spawnScan, activeCount_nil]
    | cons s rest =>
      have hrest := ih rest rng (by simpa using hle)
      have hle2 := activeCount_le_length rest
      by_cases h : s.active = false
      · simp only [spawnScan, h, if_true, activeCount_cons, activateSlot_active]
        simp only [Bool.false_eq_true, if_false, List.length_cons]
        rw [if_pos (by omega)]; omega
      · have h2 : s.active = true := by simpa using h
        simp only [spawnScan, h, if_false, activeCount_cons, h2, if_true, List.length_cons]
        simp only [Bool.true_eq_false, if_false, activeCount_cons, h2, if_true]
        rw [hrest]
        by_cases hc : activeCount rest < rest.length
        · rw [if_pos hc, if_pos (by omega)]; omega
        · rw [if_neg hc, if_neg (by omega)]

theorem spawnScan_keeps_active (x y z : ℚ) (heart : Bool) :
    ∀ (n : Nat) (pool : List HoverSlot) (rng : Rng) (i : Nat) (s : HoverSlot),
      pool[i]? = some s → s.active = true →
      (spawnScan x y z heart n pool rng).1[i]? = some s := by
  intro n
  induction n with
  | zero => intro pool rng i s h _; simpa [spawnScan] using h
  | succ n ih =>
    intro pool rng i s h hact
    cases pool with
    | nil => simp at h
    | cons a rest =>
      cases i with
      | zero =>
        simp only [List.getElem?_cons_zero, Option.some.injEq] at h
        subst h
        simp [spawnScan, hact]
      | succ i =>
        simp only [List.getElem?_cons_succ] at h
        by_cases ha : a.active = false
        · simpa [spawnScan, ha] using h
        · simpa [spawnScan, ha] using ih rest rng i s h hact

theorem spawnScan_get (x y z : ℚ) (heart : Bool) :
    ∀ (n : Nat) (pool : List HoverSlot) (rng : Rng) (i : Nat) (s : HoverSlot),
      pool[i]? = some s →
      (spawnScan x y z heart n pool rng).1[i]? = some s ∨
      (s.active = false ∧
        (spawnScan x y z heart n pool rng).1[i]? = some (activateSlot s x y z heart rng).1) := by
  intro n
  induction n with
  | zero => intro pool rng i s h; left; simpa [spawnScan] using h
  | succ n ih =>
    intro pool rng i s h
    cases pool with
    | nil => simp at h
    | cons a rest =>
      cases i with
      | zero =>
        simp only [List.getElem?_cons_zero, Option.some.injEq] at h
        subst h
        by_cases ha : a.active = false
        · right; simp [spawnScan, ha]
        · left; simp [spawnScan, ha]
      | succ i =>
        simp only [List.getElem?_cons_succ] at h
        by_cases ha : a.active = false
        · left; simpa [spawnScan, ha] using h
        · simpa [spawnScan, ha] using ih rest rng i s h

theorem tickScan_length : ∀ (n : Nat) (pool : List HoverSlot),
    (tickScan n pool).length = pool.length := by
  intro n
  induction n with
  | zero => intro pool; simp [tickScan]
  | succ n ih =>
    intro pool
    cases pool with
    | nil => simp [tickScan]
    | cons s rest => simp [tickScan, ih]

theorem tickScan_get : ∀ (n : Nat) (pool : List HoverSlot) (i : Nat) (s : HoverSlot),
    pool.length ≤ n → pool[i]? = some s → (tickScan n pool)[i]? = some (tickSlot s) := by
  intro n
  induction n with
  | zero =>
    intro pool i s hle h
    have : pool = [] := List.length_eq_zero.1 (by omega)
    subst this
    simp at h
  | succ n ih =>
    intro pool i s hle h
    cases pool with
    | nil => simp at h
    | cons a rest =>
      cases i with
      | zero =>
        simp only [List.getElem?_cons_zero, Option.some.injEq] at h
        subst h
        simp [tickScan]
      | succ i =>
        simp only [List.getElem?_cons_succ] at h
        simpa [tickScan] using ih rest i s (by simpa using hle) h

theorem runHoverOp_length (op : HoverOp) (st : List HoverSlot × Rng) :
    (runHoverOp op st).1.length = st.1.length := by
  cases op with
  | spawn x y z heart => simp [runHoverOp, spawnHoverParticle, spawnScan_length]
  | tick => simp [runHoverOp, hoverTick, tickScan_length]

theorem runHoverOps_length : ∀ (ops : List HoverOp) (st : List HoverSlot × Rng),
    (runHoverOps ops st).1.length = st.1.length := by
  intro ops
  induction ops with
  | nil => intro st; rfl
  | cons op ops ih =>
    intro st
    simp only [runHoverOps]
    rw [ih, runHoverOp_length]

theorem hoverInit_length : hoverInit.length = hoverCount := by
  simp [hoverInit]

theorem hoverInit_activeCount : activeCount hoverInit = 0 := by
  simp [activeCount, hoverInit, hoverSlotInit, List.filter_replicate]

theorem spawn_count (x y z : ℚ) (heart : Bool) (pool : List HoverSlot) (rng : Rng)
    (hlen : pool.length = hoverCount) :
    activeCount (spawnHoverParticle x y z heart pool rng).1
      = min (activeCount pool + 1) hoverCount := by
  have h := spawnScan_count x y z heart hoverCount pool rng (by omega)
  have hle := activeCount_le_length pool
  unfold spawnHoverParticle
  rw [h]
  by_cases hc : activeCount pool < pool.length
  · rw [if_pos hc]; omega
  · rw [if_neg hc]; omega

theorem spawns_from_init : ∀ (args : List (ℚ × ℚ × ℚ × Bool)) (st : List HoverSlot × Rng),
    st.1.length = hoverCount →
    activeCount
      (runHoverOps (args.map (fun a => HoverOp.spawn a.1 a.2.1 a.2.2.1 a.2.2.2)) st).1
      = min (activeCount st.1 + args.length) hoverCount := by
  intro args
  induction args with
  | nil =>
    intro st hlen
    have := activeCount_le_length st.1
    simp only [List.map_nil, runHoverOps, List.length_nil]
    omega
  | cons a args ih =>
    intro st hlen
    simp only [List.map_cons, runHoverOps, List.length_cons]
    have hl : (runHoverOp (HoverOp.spawn a.1 a.2.1 a.2.2.1 a.2.2.2) st).1.length = hoverCount := by
      rw [runHoverOp_length]; exact hlen
    rw [ih _ hl]
    have hc := spawn_count a.1 a.2.1 a.2.2.1 a.2.2.2 st.1 st.2 hlen
    simp only [runHoverOp]
    rw [hc]
    omega

/-- C3: the number of active hover slots never exceeds `hoverCount = 600` along
any sequence of pool operations; a spawn into a pool with `a` active slots
leaves `min (a + 1) 600` active slots; a spawn into a pool whose 600 slots are
all active returns the pool (every field of every slot) and the random stream
unchanged; `n` spawns from the initial pool leave `min n 600` active slots, so
`600 + 5` spawns leave exactly 600. -/
theorem C3_hover_pool_capacity :
    (∀ (ops : List HoverOp) (pool : List HoverSlot) (rng : Rng),
      pool.length = hoverCount → activeCount (runHoverOps ops (pool, rng)).1 ≤ 600) ∧
    (∀ (x y z : ℚ) (heart : Bool) (pool : List HoverSlot) (rng : Rng),
      pool.length = hoverCount →
      activeCount (spawnHoverParticle x y z heart pool rng).1
        = min (activeCount pool + 1) 600) ∧
    (∀ (x y z : ℚ) (heart : Bool) (pool : List HoverSlot) (rng : Rng),
      pool.length = hoverCount → activeCount pool = 600 →
      spawnHoverParticle x y z heart pool rng = (pool, rng)) ∧
    (∀ (args : List (ℚ × ℚ × ℚ × Bool)) (rng : Rng),
      activeCount
        (runHoverOps (args.map (fun a => HoverOp.spawn a.1 a.2.1 a.2.2.1 a.2.2.2))
          (hoverInit, rng)).1 = min args.length 600) ∧
    (∀ (args : List (ℚ × ℚ × ℚ × Bool)) (rng : Rng),
      args.length = hoverCount + 5 →
      activeCount
        (runHoverOps (args.map (fun a => HoverOp.spawn a.1 a.2.1 a.2.2.1 a.2.2.2))
          (hoverInit, rng)).1 = 600) := by
  have hmany : ∀ (args : List (ℚ × ℚ × ℚ × Bool)) (rng : Rng),
      activeCount
        (runHoverOps (args.map (fun a => HoverOp.spawn a.1 a.2.1 a.2.2.1 a.2.2.2))
          (hoverInit, rng)).1 = min args.length 600 := by
    intro args rng
    have h := spawns_from_init args (hoverInit, rng) hoverInit_length
    simp only [hoverInit_activeCount, Nat.zero_add] at h
    simpa [hoverCount] using h
  refine ⟨?_, ?_, ?_, hmany, ?_⟩
  · intro ops pool rng hlen
    have h1 := activeCount_le_length (runHoverOps ops (pool, rng)).1
    rw [runHoverOps_length] at h1
    simp only [hoverCount] at hlen
    simp only at h1
    omega
  · intro x y z heart pool rng hlen
    simpa [hoverCount] using spawn_count x y z heart pool rng hlen
  · intro x y z heart pool rng hlen hfull
    apply spawnScan_full
    apply activeCount_eq_length
    simp only [hoverCount] at hlen
    omega
  · intro args rng hlen
    rw [hmany, hlen]
    simp [hoverCount]

/-- C3 instantiated at the initial pool: one spawn leaves one active slot. -/
theorem C3_hover_pool_capacity_witness :
    hoverInit.length = hoverCount ∧
    activeCount (spawnHoverParticle 0 2 0 true hoverInit rngZero).1
      = min (activeCount hoverInit + 1) 600 :=
  ⟨hoverInit_length,
   C3_hover_pool_capacity.2.1 0 2 0 true hoverInit rngZero hoverInit_length⟩

theorem spawn_head_inactive (x y z : ℚ) (heart : Bool) (s : HoverSlot)
    (rest : List HoverSlot) (rng : Rng) (h : s.active = false) :
    spawnHoverParticle x y z heart (s :: rest) rng
      = ((activateSlot s x y z heart rng).1 :: rest, (activateSlot s x y z heart rng).2) := by
  show spawnScan x y z heart (599 + 1) (s :: rest) rng = _
  simp [spawnScan, h]

theorem hoverInit_cons : hoverInit = hoverSlotInit :: List.replicate 599 hoverSlotInit := rfl

theorem tickSlot_running (s : HoverSlot) (ha : s.active = true) (hl : 0 < s.life - 0.02) :
    tickSlot s = { s with life := s.life - 0.02,
                          hpx := s.hpx + s.vx, hpy := s.hpy + s.vy,
                          hpz := s.hpz + s.vz } := by
  simp [tickSlot, ha, not_le.2 hl]

theorem tickSlot_expired (s : HoverSlot) (ha : s.active = true) (hl : s.life - 0.02 ≤ 0) :
    tickSlot s = { s with life := s.life - 0.02, active := false, hpy := -500 } := by
  simp [tickSlot, ha, hl]

theorem tickSlot_inactive (s : HoverSlot) (ha : s.active = false) : tickSlot s = s := by
  simp [tickSlot, ha]

theorem tickSlot_life (s : HoverSlot) (ha : s.active = true) :
    (tickSlot s).life = s.life - 0.02 := by
  by_cases hl : s.life - 0.02 ≤ 0
  · rw [tickSlot_expired s ha hl]
  · rw [tickSlot_running s ha (not_le.1 hl)]

theorem life_after_ops (i : Nat) :
    ∀ (ops : List HoverOp) (st : List HoverSlot × Rng) (s : HoverSlot) (m : Nat),
      st.1.length = hoverCount → st.1[i]? = some s → s.active = true →
      s.life = 1 - 0.02 * (m : ℚ) → m + tickCount ops ≤ 49 →
      ∃ t, (runHoverOps ops st).1[i]? = some t ∧ t.active = true ∧
        t.life = 1 - 0.02 * ((m + tickCount ops : Nat) : ℚ) := by
  intro ops
  induction ops with
  | nil =>
    intro st s m _ hget hact hlife _
    exact ⟨s, hget, hact, by simpa [tickCount] using hlife⟩
  | cons op ops ih =>
    intro st s m hlen hget hact hlife hle
    cases op with
    | spawn x y z heart =>
      simp only [tickCount] at hle ⊢
      simp only [runHoverOps]
      refine ih _ s m ?_ ?_ hact hlife hle
      · rw [runHoverOp_length]; exact hlen
      · exact spawnScan_keeps_active x y z heart hoverCount st.1 st.2 i s hget hact
    | tick =>
      simp only [tickCount] at hle ⊢
      simp only [runHoverOps]
      have hm : (m : ℚ) + 1 ≤ 49 := by
        have : m + 1 ≤ 49 := by omega
        exact_mod_cast this
      have hpos : 0 < s.life - 0.02 := by
        rw [hlife]; norm_num; linarith
      have hget2 : (runHoverOp HoverOp.tick st).1[i]? = some (tickSlot s) :=
        tickScan_get hoverCount st.1 i s (by omega) hget
      obtain ⟨t, ht1, ht2, ht3⟩ := ih (runHoverOp HoverOp.tick st) (tickSlot s) (m + 1)
        (by rw [runHoverOp_length]; exact hlen) hget2
        (by rw [tickSlot_running s hact hpos]; exact hact)
        (by rw [tickSlot_running s hact hpos]; simp only; rw [hlife]; push_cast; ring)
        (by omega)
      refine ⟨t, ht1, ht2, ?_⟩
      rw [ht3]
      congr 3
      omega

/-- C4: a slot that `spawnHoverParticle` has just activated has `life = 1`;
after any later pool operations containing `k <= 49` ticks it is still active
with `life = 1 - 0.02 * k`; the next tick lowers its life by exactly `0.02`
(so strictly), and leaves the slot active exactly when `k < 49`: the slot is
still active after 49 ticks and inactive after the 50th. -/
theorem C4_hover_life (x y z : ℚ) (heart : Bool) (pool : List HoverSlot) (rng : Rng)
    (i : Nat) (s s1 : HoverSlot)
    (hlen : pool.length = hoverCount) (hold : pool[i]? = some s) (hinact : s.active = false)
    (hnew : (spawnHoverParticle x y z heart pool rng).1[i]? = some s1)
    (hact : s1.active = true) :
    s1.life = 1 ∧
    ∀ ops : List HoverOp, tickCount ops ≤ 49 →
      ∃ t t1 : HoverSlot,
        (runHoverOps ops (spawnHoverParticle x y z heart pool rng)).1[i]? = some t ∧
        t.active = true ∧ t.life = 1 - 0.02 * (tickCount ops : ℚ) ∧
        (hoverTick (runHoverOps ops (spawnHoverParticle x y z heart pool rng)).1)[i]?
          = some t1 ∧
        t1.life = t.life - 0.02 ∧ t1.life < t.life ∧
        (t1.active = true ↔ tickCount ops < 49) := by
  have hs1 : s1 = (activateSlot s x y z heart rng).1 := by
    rcases spawnScan_get x y z heart hoverCount pool rng i s hold with h | ⟨_, h⟩
    · have h2 : some s = some s1 := by rw [← h]; exact hnew
      have h3 : s = s1 := Option.some.inj h2
      subst h3
      rw [hinact] at hact
      exact absurd hact (by simp)
    · have h2 : some (activateSlot s x y z heart rng).1 = some s1 := by rw [← h]; exact hnew
      exact (Option.some.inj h2).symm
  have hlife : s1.life = 1 := by rw [hs1]; exact activateSlot_life s x y z heart rng
  refine ⟨hlife, ?_⟩
  intro ops hk
  have hlen1 : (spawnHoverParticle x y z heart pool rng).1.length = hoverCount := by
    unfold spawnHoverParticle; rw [spawnScan_length]; exact hlen
  obtain ⟨t, ht1, ht2, ht3⟩ := life_after_ops i ops (spawnHoverParticle x y z heart pool rng)
    s1 0 hlen1 hnew hact (by rw [hlife]; norm_num) (by omega)
  have hlen2 : (runHoverOps ops (spawnHoverParticle x y z heart pool rng)).1.length
      = hoverCount := by
    rw [runHoverOps_length]; exact hlen1
  have hget := tickScan_get hoverCount _ i t (by omega) ht1
  rw [Nat.zero_add] at ht3
  have hkq : (tickCount ops : ℚ) ≤ 49 := by exact_mod_cast hk
  refine ⟨t, tickSlot t, ht1, ht2, ht3, hget, ?_, ?_, ?_⟩
  · exact tickSlot_life t ht2
  · rw [tickSlot_life t ht2]; norm_num
  · constructor
    · intro h
      by_contra hnot
      have h49 : tickCount ops = 49 := by omega
      have hle : t.life - 0.02 ≤ 0 := by rw [ht3, h49]; norm_num
      rw [tickSlot_expired t ht2 hle] at h
      simp at h
    · intro hlt
      have hq : (tickCount ops : ℚ) + 1 ≤ 49 := by
        have : tickCount ops + 1 ≤ 49 := by omega
        exact_mod_cast this
      have hpos : 0 < t.life - 0.02 := by rw [ht3]; norm_num; linarith
      rw [tickSlot_running t ht2 hpos]
      exact ht2

/-- C4 instantiated at the first spawn into the initial pool: slot 0 is the
slot that is activated. -/
theorem C4_hover_life_witness :
    (hoverInit.length = hoverCount ∧ hoverInit[0]? = some hoverSlotInit ∧
      hoverSlotInit.active = false ∧
      (spawnHoverParticle 0 2 0 true hoverInit rngZero).1[0]?
        = some (activateSlot hoverSlotInit 0 2 0 true rngZero).1 ∧
      (activateSlot hoverSlotInit 0 2 0 true rngZero).1.active = true) ∧
    ((activateSlot hoverSlotInit 0 2 0 true rngZero).1.life = 1 ∧
      ∀ ops : List HoverOp, tickCount ops ≤ 49 →
        ∃ t t1 : HoverSlot,
          (runHoverOps ops (spawnHoverParticle 0 2 0 true hoverInit rngZero)).1[0]? = some t ∧
          t.active = true ∧ t.life = 1 - 0.02 * (tickCount ops : ℚ) ∧
          (hoverTick (runHoverOps ops (spawnHoverParticle 0 2 0 true hoverInit rngZero)).1)[0]?
            = some t1 ∧
          t1.life = t.life - 0.02 ∧ t1.life < t.life ∧
          (t1.active = true ↔ tickCount ops < 49)) :=
  have h0 : hoverInit[0]? = some hoverSlotInit := by
    rw [hoverInit_cons, List.getElem?_cons_zero]
  have h1 : (spawnHoverParticle 0 2 0 true hoverInit rngZero).1[0]?
      = some (activateSlot hoverSlotInit 0 2 0 true rngZero).1 := by
    rw [hoverInit_cons, spawn_head_inactive 0 2 0 true hoverSlotInit _ rngZero rfl,
      List.getElem?_cons_zero]
  ⟨⟨hoverInit_length, h0, rfl, h1, rfl⟩,
   C4_hover_life 0 2 0 true hoverInit rngZero 0 hoverSlotInit (activateSlot hoverSlotInit 0 2 0 true rngZero).1
     hoverInit_length h0 rfl h1 rfl⟩

theorem tickSlot_hoverPos (s : HoverSlot) :
    (tickSlot s).px = s.px ∧ (tickSlot s).py = s.py ∧ (tickSlot s).pz = s.pz := by
  unfold tickSlot
  split
  · split <;> exact ⟨rfl, rfl, rfl⟩
  · exact ⟨rfl, rfl, rfl⟩

theorem runHoverOps_cons (op : HoverOp) (ops : List HoverOp) (st : List HoverSlot × Rng) :
    runHoverOps (op :: ops) st = runHoverOps ops (runHoverOp op st) := rfl

theorem ticks_get : ∀ (k : Nat) (st : List HoverSlot × Rng) (i : Nat) (s : HoverSlot),
    st.1.length = hoverCount → st.1[i]? = some s →
    (runHoverOps (List.replicate k HoverOp.tick) st).1[i]? = some (tickSlot^[k] s) := by
  intro k
  induction k with
  | zero => intro st i s _ h; simpa [runHoverOps] using h
  | succ k ih =>
    intro st i s hlen h
    rw [List.replicate_succ, Function.iterate_succ_apply]
    simp only [runHoverOps]
    refine ih (runHoverOp HoverOp.tick st) i (tickSlot s) ?_ ?_
    · rw [runHoverOp_length]; exact hlen
    · exact tickScan_get hoverCount st.1 i s (by omega) h

theorem tickSlot_iterate_inactive : ∀ (k : Nat) (s : HoverSlot), s.active = false →
    tickSlot^[k] s = s := by
  intro k
  induction k with
  | zero => intro s _; rfl
  | succ k ih =>
    intro s h
    rw [Function.iterate_succ_apply, tickSlot_inactive s h]
    exact ih s h

theorem tickSlot_iterate_running : ∀ (k : Nat) (s : HoverSlot), s.active = true →
    0 < s.life - 0.02 * (k : ℚ) →
    tickSlot^[k] s
      = { s with life := s.life - 0.02 * (k : ℚ),
                 hpx := s.hpx + (k : ℚ) * s.vx, hpy := s.hpy + (k : ℚ) * s.vy,
                 hpz := s.hpz + (k : ℚ) * s.vz } := by
  intro k
  induction k with
  | zero =>
    intro s _ _
    cases s
    simp
  | succ k ih =>
    intro s ha hl
    have hk : (0 : ℚ) ≤ (k : ℚ) := Nat.cast_nonneg k
    push_cast at hl
    have h1 : 0 < s.life - 0.02 := by norm_num at hl ⊢; linarith
    rw [Function.iterate_succ_apply, tickSlot_running s ha h1]
    rw [ih { s with life := s.life - 0.02,
                    hpx := s.hpx + s.vx, hpy := s.hpy + s.vy, hpz := s.hpz + s.vz }
      ha (by simp only; norm_num at hl ⊢; linarith)]
    cases s
    simp only [HoverSlot.mk.injEq, true_and, and_true]
    push_cast
    refine ⟨by ring, by ring, by ring, by ring⟩

/-- C10 (what the code does): after start-up every slot is inactive and its
drawn position `hp` has `y = 0`, not `-500`; the `-500` of line 167 is in
`hoverPos`.  After one spawn at `(0, 2, 0)` with all draws `0` and fifty ticks,
slot 0 is inactive with `y = -500` in `hp`, while `hoverPos`
still holds the spawn height `y = 2`; the drawn position moved from the origin,
not from the spawn point; slot 1, never used, is inactive and still drawn at
`y = 0`. -/
theorem C10_inactive_slots_not_offscreen :
    (∀ s ∈ hoverInit, s.active = false ∧ s.hpy = 0 ∧ s.py = -500) ∧
    (runHoverOps (HoverOp.spawn 0 2 0 true :: List.replicate 50 HoverOp.tick)
        (hoverInit, rngZero)).1[0]?
      = some { active := false, life := 0, vx := -0.05, vy := 0.1, vz := -0.05,
               px := -0.5, py := 2, pz := -0.5, cr := 1, cg := 0.2, cb := 0.5,
               hpx := -2.45, hpy := -500, hpz := -2.45 } ∧
    (runHoverOps (HoverOp.spawn 0 2 0 true :: List.replicate 50 HoverOp.tick)
        (hoverInit, rngZero)).1[1]?
      = some hoverSlotInit := by
  have hsp : runHoverOp (HoverOp.spawn 0 2 0 true) (hoverInit, rngZero)
      = ((activateSlot hoverSlotInit 0 2 0 true rngZero).1
            :: List.replicate 599 hoverSlotInit,
          (activateSlot hoverSlotInit 0 2 0 true rngZero).2) := by
    simp only [runHoverOp]
    rw [hoverInit_cons, spawn_head_inactive 0 2 0 true hoverSlotInit _ rngZero rfl]
  have hlen : (runHoverOp (HoverOp.spawn 0 2 0 true) (hoverInit, rngZero)).1.length
      = hoverCount := by
    rw [runHoverOp_length]; exact hoverInit_length
  refine ⟨?_, ?_, ?_⟩
  · intro s hs
    have : s = hoverSlotInit := List.eq_of_mem_replicate hs
    rw [this]
    exact ⟨rfl, rfl, rfl⟩
  · rw [runHoverOps_cons]
    rw [ticks_get 50 _ 0 (activateSlot hoverSlotInit 0 2 0 true rngZero).1 hlen
      (by rw [hsp, List.getElem?_cons_zero])]
    have h49 : tickSlot^[50] (activateSlot hoverSlotInit 0 2 0 true rngZero).1
        = tickSlot (tickSlot^[49] (activateSlot hoverSlotInit 0 2 0 true rngZero).1) :=
      Function.iterate_succ_apply' tickSlot 49 _
    rw [h49, tickSlot_iterate_running 49 _ rfl
      (by norm_num [activateSlot]), tickSlot_expired _ rfl (by norm_num [activateSlot])]
    norm_num [activateSlot, hoverSlotInit, rngZero, Rng.next]
  · rw [runHoverOps_cons]
    rw [ticks_get 50 _ 1 hoverSlotInit hlen
      (by rw [hsp, List.getElem?_cons_succ, List.getElem?_replicate]; simp),
      tickSlot_iterate_inactive 50 hoverSlotInit rfl]

/-! ## Petals: proofs -/

theorem petalStep_draws (p : Petal) (rng : Rng) : (petalStep p rng).2.draws = rng.draws := by
  unfold petalStep
  split <;> rfl

theorem petalStep_y_nonneg (p : Petal) (rng : Rng) : 0 ≤ (petalStep p rng).1.y := by
  unfold petalStep
  split
  · norm_num
  · next h => exact not_lt.1 h

theorem petalTick_length : ∀ (petals : List Petal) (rng : Rng),
    (petalTick petals rng).1.length = petals.length := by
  intro petals
  induction petals with
  | nil => intro rng; rfl
  | cons p rest ih => intro rng; simp [petalTick, ih]

theorem petalTick_get : ∀ (petals : List Petal) (rng : Rng) (i : Nat) (p : Petal),
    petals[i]? = some p →
    ∃ g : Rng, g.draws = rng.draws ∧ (petalTick petals rng).1[i]? = some (petalStep p g).1 := by
  intro petals
  induction petals with
  | nil => intro rng i p h; simp at h
  | cons a rest ih =>
    intro rng i p h
    cases i with
    | zero =>
      simp only [List.getElem?_cons_zero, Option.some.injEq] at h
      subst h
      exact ⟨rng, rfl, by simp [petalTick]⟩
    | succ i =>
      simp only [List.getElem?_cons_succ] at h
      obtain ⟨g, hg1, hg2⟩ := ih (petalStep a rng).2 i p h
      exact ⟨g, by rw [hg1, petalStep_draws], by simpa [petalTick] using hg2⟩

theorem petalTick_y_nonneg : ∀ (petals : List Petal) (rng : Rng),
    ∀ p ∈ (petalTick petals rng).1, 0 ≤ p.y := by
  intro petals
  induction petals with
  | nil => intro rng p hp; simp [petalTick] at hp
  | cons a rest ih =>
    intro rng p hp
    simp only [petalTick, List.mem_cons] at hp
    rcases hp with hp | hp
    · rw [hp]; exact petalStep_y_nonneg a rng
    · exact ih _ p hp

theorem petalInitLoop_length (M : MathFns) :
    ∀ (k i : Nat) (acc : List Petal) (rng : Rng),
      (petalInitLoop M k i acc rng).1.length = acc.length + k := by
  intro k
  induction k with
  | zero => intro i acc rng; simp [petalInitLoop]
  | succ k ih =>
    intro i acc rng
    simp only [petalInitLoop]
    rw [ih]
    simp
    omega

theorem petalTicks_length : ∀ (n : Nat) (st : List Petal × Rng),
    (petalTicks n st).1.length = st.1.length := by
  intro n
  induction n with
  | zero => intro st; rfl
  | succ n ih =>
    intro st
    simp only [petalTicks]
    rw [ih, petalTick_length]

theorem petalTicks_y_nonneg : ∀ (n : Nat) (st : List Petal × Rng),
    (∀ p ∈ st.1, 0 ≤ p.y) → ∀ p ∈ (petalTicks n st).1, 0 ≤ p.y := by
  intro n
  induction n with
  | zero => intro st h; exact h
  | succ n ih =>
    intro st _
    simp only [petalTicks]
    exact ih _ (petalTick_y_nonneg st.1 st.2)

theorem petalStep_rng (p : Petal) (rng : Rng) :
    (petalStep p rng).2 = rng.skip (2 * (if recycles p = true then 1 else 0)) := by
  unfold petalStep recycles
  by_cases h : p.y - p.vy < 0
  · simp [h, Rng.skip, Rng.next]
  · simp [h, Rng.skip]

theorem rng_skip_skip (g : Rng) (a b : Nat) : (g.skip a).skip b = g.skip (a + b) := by
  simp [Rng.skip, Nat.add_assoc]

theorem recycleCount_cons (a : Petal) (rest : List Petal) :
    recycleCount (a :: rest) = (if recycles a = true then 1 else 0) + recycleCount rest := by
  unfold recycleCount
  by_cases h : recycles a = true
  · simp [List.filter_cons, h]; omega
  · simp [List.filter_cons, h]

theorem petalTick_rng : ∀ (petals : List Petal) (rng : Rng),
    (petalTick petals rng).2 = rng.skip (2 * recycleCount petals) := by
  intro petals
  induction petals with
  | nil => intro rng; rfl
  | cons a rest ih =>
    intro rng
    simp only [petalTick]
    rw [ih, petalStep_rng, rng_skip_skip, recycleCount_cons]
    congr 1
    omega

theorem petalTick_get_at : ∀ (petals : List Petal) (rng : Rng) (i : Nat) (p : Petal),
    petals[i]? = some p →
    (petalTick petals rng).1[i]?
      = some (petalStep p (rng.skip (2 * recycleCount (petals.take i)))).1 := by
  intro petals
  induction petals with
  | nil => intro rng i p h; simp at h
  | cons a rest ih =>
    intro rng i p h
    cases i with
    | zero =>
      simp only [List.getElem?_cons_zero, Option.some.injEq] at h
      subst h
      simp only [petalTick, List.getElem?_cons_zero, List.take_zero]
      rfl
    | succ i =>
      simp only [List.getElem?_cons_succ] at h
      simp only [petalTick, List.getElem?_cons_succ, List.take_succ_cons]
      rw [ih (petalStep a rng).2 i p h, petalStep_rng, rng_skip_skip, recycleCount_cons]
      congr 4
      omega

theorem rngZero_inUnit : rngZero.inUnit := by
  intro n
  simp [rngZero]

theorem rngSteps_inUnit : rngSteps.inUnit := by
  intro n
  by_cases h : n = 0 <;> simp [rngSteps, h] <;> norm_num

/-- C5: a petal tick with `y - vy < 0` recycles the petal: new `y` is `100`, new
`x` is `(u - 0.5) * 300` for the next draw `u` and new `z` is `(v - 0.5) * 300`
for the draw `v` after it, the stream moves on by exactly these two draws, and
so `x`, `z` lie in `[-150, 150)` for draws in `[0, 1)`; otherwise new `y` is
`y - vy`, `x`, `z` are unchanged and no draw is taken.  In both cases `vy`,
`rotSpeed`, `isRed` and `idx` are unchanged and `rx`, `rz` advance by
`rotSpeed`.  The petal loop applies this step to every petal in order, each with
the stream as the recycled petals before it left it, keeps the number of petals,
which is `petalCount = 800` from the initialisation on, and after every tick
every petal has `y >= 0`. -/
theorem C5_petal_recycle :
    (∀ (p : Petal) (rng : Rng), p.y - p.vy < 0 → rng.inUnit →
      (petalStep p rng).1.y = 100 ∧ 100 ≤ (petalStep p rng).1.y ∧
      -150 ≤ (petalStep p rng).1.x ∧ (petalStep p rng).1.x < 150 ∧
      -150 ≤ (petalStep p rng).1.z ∧ (petalStep p rng).1.z < 150) ∧
    (∀ (p : Petal) (rng : Rng), p.y - p.vy < 0 →
      (petalStep p rng).1.y = 100 ∧
      (petalStep p rng).1.x = (rng.draws rng.pos - 0.5) * 300 ∧
      (petalStep p rng).1.z = (rng.draws (rng.pos + 1) - 0.5) * 300 ∧
      (petalStep p rng).2 = { draws := rng.draws, pos := rng.pos + 2 }) ∧
    (∀ (p : Petal) (rng : Rng), ¬ p.y - p.vy < 0 →
      (petalStep p rng).1.y = p.y - p.vy ∧
      (petalStep p rng).1.x = p.x ∧ (petalStep p rng).1.z = p.z ∧
      (petalStep p rng).2 = rng) ∧
    (∀ (p : Petal) (rng : Rng),
      (petalStep p rng).1.vy = p.vy ∧ (petalStep p rng).1.rotSpeed = p.rotSpeed ∧
      (petalStep p rng).1.isRed = p.isRed ∧ (petalStep p rng).1.idx = p.idx ∧
      (petalStep p rng).1.rx = p.rx + p.rotSpeed ∧
      (petalStep p rng).1.rz = p.rz + p.rotSpeed) ∧
    (∀ (petals : List Petal) (rng : Rng) (i : Nat) (p : Petal), petals[i]? = some p →
      (petalTick petals rng).1[i]?
        = some (petalStep p (rng.skip (2 * recycleCount (petals.take i)))).1) ∧
    (∀ (petals : List Petal) (rng : Rng),
      (petalTick petals rng).2 = rng.skip (2 * recycleCount petals)) ∧
    (∀ (petals : List Petal) (rng : Rng),
      (petalTick petals rng).1.length = petals.length) ∧
    (∀ (M : MathFns) (rng : Rng) (n : Nat),
      (petalTicks n (petalsInit M rng)).1.length = petalCount) ∧
    petalCount = 800 ∧
    (∀ (petals : List Petal) (rng : Rng), ∀ p ∈ (petalTick petals rng).1, 0 ≤ p.y) ∧
    (∀ (M : MathFns) (rng : Rng) (n : Nat),
      ∀ p ∈ (petalTicks (n + 1) (petalsInit M rng)).1, 0 ≤ p.y) := by
  have hrec : ∀ (p : Petal) (rng : Rng), p.y - p.vy < 0 →
      (petalStep p rng).1.y = 100 ∧
      (petalStep p rng).1.x = (rng.draws rng.pos - 0.5) * 300 ∧
      (petalStep p rng).1.z = (rng.draws (rng.pos + 1) - 0.5) * 300 ∧
      (petalStep p rng).2 = { draws := rng.draws, pos := rng.pos + 2 } := by
    intro p rng hlt
    refine ⟨?_, ?_, ?_, ?_⟩ <;> simp [petalStep, hlt, Rng.next]
  refine ⟨?_, hrec, ?_, ?_, petalTick_get_at, petalTick_rng, petalTick_length, ?_, rfl,
    petalTick_y_nonneg, ?_⟩
  · intro p rng hlt hu
    have h1 := hu rng.pos
    have h2 := hu (rng.pos + 1)
    obtain ⟨hy, hx, hz, _⟩ := hrec p rng hlt
    rw [hy, hx, hz]
    refine ⟨rfl, le_refl _, ?_, ?_, ?_, ?_⟩ <;> norm_num <;> linarith
  · intro p rng hge
    simp [petalStep, hge]
  · intro p rng
    unfold petalStep
    split <;> exact ⟨rfl, rfl, rfl, rfl, rfl, rfl⟩
  · intro M rng n
    rw [petalTicks_length]
    unfold petalsInit
    rw [petalInitLoop_length]
    simp
  · intro M rng n
    simp only [petalTicks]
    exact petalTicks_y_nonneg n _ (petalTick_y_nonneg _ _)

/-- C5 instantiated at a petal with `y = 0`, `vy = 1` and the draws `0.25` then
`0.75`: the petal is recycled to `y = 100`, `x = -75`, `z = 75`, inside the
square, and the stream has moved on by two draws. -/
theorem C5_petal_recycle_witness :
    (petalLow.y - petalLow.vy < 0 ∧ rngSteps.inUnit) ∧
    ((petalStep petalLow rngSteps).1.y = 100 ∧ 100 ≤ (petalStep petalLow rngSteps).1.y ∧
      -150 ≤ (petalStep petalLow rngSteps).1.x ∧ (petalStep petalLow rngSteps).1.x < 150 ∧
      -150 ≤ (petalStep petalLow rngSteps).1.z ∧ (petalStep petalLow rngSteps).1.z < 150) ∧
    ((petalStep petalLow rngSteps).1.y = 100 ∧
      (petalStep petalLow rngSteps).1.x = (rngSteps.draws rngSteps.pos - 0.5) * 300 ∧
      (petalStep petalLow rngSteps).1.z = (rngSteps.draws (rngSteps.pos + 1) - 0.5) * 300 ∧
      (petalStep petalLow rngSteps).2 = { draws := rngSteps.draws, pos := rngSteps.pos + 2 }) ∧
    (rngSteps.draws rngSteps.pos - 0.5) * 300 = -75 ∧
    (rngSteps.draws (rngSteps.pos + 1) - 0.5) * 300 = 75 :=
  ⟨⟨by norm_num [petalLow], rngSteps_inUnit⟩,
   C5_petal_recycle.1 petalLow rngSteps (by norm_num [petalLow]) rngSteps_inUnit,
   C5_petal_recycle.2.1 petalLow rngSteps (by norm_num [petalLow]),
   by norm_num [rngSteps], by norm_num [rngSteps]⟩

/-! ## Field update: proofs -/

theorem swell_targetScale (hasI : Bool) (p : Vec3) (data : Instance)
    (pool : List HoverSlot) (rng : Rng) :
    (swell hasI p data pool rng).targetScale = targetScale hasI p data := by
  unfold swell targetScale
  split
  · split
    · split <;> rfl
    · rfl
  · rfl

theorem swell_no_intersect (p : Vec3) (data : Instance) (pool : List HoverSlot) (rng : Rng) :
    swell false p data pool rng
      = { targetScale := data.baseScale, pool := pool, rng := rng } := by
  simp [swell]

theorem updateField_instances (hasI : Bool) (p : Vec3) :
    ∀ (insts : List Instance) (pool : List HoverSlot) (rng : Rng),
      (updateField hasI p insts pool rng).1
        = insts.map (fun d => ease d (targetScale hasI p d)) := by
  intro insts
  induction insts with
  | nil => intro pool rng; rfl
  | cons d rest ih =>
    intro pool rng
    simp only [updateField, List.map_cons, swell_targetScale, ih]

theorem far_outside_radius (a b c d : ℚ) (hin : a ^ 2 + b ^ 2 ≤ 220 ^ 2)
    (hfar : ¬ (c * c + 0 * 0 + d * d < 220 * 220 * 2)) :
    ¬ ((a - c) * (a - c) + (b - d) * (b - d) < 625) := by
  intro h
  have hfar2 := not_lt.1 hfar
  nlinarith [sq_nonneg (3 * a - 2 * c), sq_nonneg (3 * b - 2 * d)]

/-- C6: in a frame with a valid ground intersection at `p` (`hasIntersect` is
true), the computed `targetScale` of every instance is `baseScale * 1.3` when
`(x - p.x)^2 + (z - p.z)^2 < 625` and `baseScale` otherwise; with `p` at the
field centre this reads `x^2 + z^2 < 625`; for an instance inside the field
disk (`x^2 + z^2 <= fieldRadius^2`) the same holds for every point `p` of the
ground plane. -/
theorem C6_target_scale :
    (∀ (p : Vec3) (data : Instance) (pool : List HoverSlot) (rng : Rng),
      hasIntersect (some p) = true →
      (swell (hasIntersect (some p)) (intersectPoint (some p)) data pool rng).targetScale
        = if (data.x - p.x) ^ 2 + (data.z - p.z) ^ 2 < 625 then data.baseScale * 1.3
          else data.baseScale) ∧
    hasIntersect (some origin) = true ∧
    (∀ (data : Instance) (pool : List HoverSlot) (rng : Rng),
      (swell (hasIntersect (some origin)) (intersectPoint (some origin)) data pool
          rng).targetScale
        = if data.x ^ 2 + data.z ^ 2 < 625 then 1.3 * data.baseScale else data.baseScale) ∧
    (∀ (p : Vec3) (data : Instance) (pool : List HoverSlot) (rng : Rng),
      p.y = 0 → data.x ^ 2 + data.z ^ 2 ≤ fieldRadius ^ 2 →
      (swell (hasIntersect (some p)) (intersectPoint (some p)) data pool rng).targetScale
        = if (data.x - p.x) ^ 2 + (data.z - p.z) ^ 2 < 625 then data.baseScale * 1.3
          else data.baseScale) := by
  have hgen : ∀ (p : Vec3) (data : Instance) (pool : List HoverSlot) (rng : Rng),
      hasIntersect (some p) = true →
      (swell (hasIntersect (some p)) (intersectPoint (some p)) data pool rng).targetScale
        = if (data.x - p.x) ^ 2 + (data.z - p.z) ^ 2 < 625 then data.baseScale * 1.3
          else data.baseScale := by
    intro p data pool rng h
    rw [swell_targetScale, h]
    simp only [targetScale, intersectPoint, if_true, sq]
  have horigin : hasIntersect (some origin) = true := by
    norm_num [hasIntersect, intersectPoint, origin, Vec3.lengthSq, fieldRadius]
  refine ⟨hgen, horigin, ?_, ?_⟩
  · intro data pool rng
    rw [hgen origin data pool rng horigin]
    simp only [origin, sub_zero, mul_comm]
  · intro p data pool rng hy hin
    by_cases hI : hasIntersect (some p) = true
    · exact hgen p data pool rng hI
    · have hI2 : hasIntersect (some p) = false := by simpa using hI
      rw [hI2, swell_no_intersect]
      have hfar : ¬ (p.x * p.x + 0 * 0 + p.z * p.z < 220 * 220 * 2) := by
        simpa [hasIntersect, intersectPoint, Vec3.lengthSq, fieldRadius, hy] using hI2
      have hout := far_outside_radius data.x data.z p.x p.z
        (by simpa [fieldRadius] using hin) hfar
      simp only [sq]
      rw [if_neg hout]

/-- C6 instantiated at the field centre and the instance stored there: the
target scale is `1.5 * 1.3`. -/
theorem C6_target_scale_witness :
    hasIntersect (some origin) = true ∧
    (swell (hasIntersect (some origin)) (intersectPoint (some origin)) instZero hoverInit
        rngZero).targetScale
      = if (instZero.x - origin.x) ^ 2 + (instZero.z - origin.z) ^ 2 < 625
        then instZero.baseScale * 1.3 else instZero.baseScale :=
  ⟨C6_target_scale.2.1,
   C6_target_scale.1 origin instZero hoverInit rngZero C6_target_scale.2.1⟩

/-- C7 (what the code does): when the plane-intersection call yields no point,
`intersectPoint` is still the zero vector, so `hasIntersect` is true; the
instance at the field centre gets `targetScale = 1.5 * 1.3`, not its
`baseScale = 1.5`; with a draw below `0.05` a hover particle is spawned, and
after the frame `currentScale` has moved away from `baseScale`. -/
theorem C7_no_intersection_still_swells :
    hasIntersect none = true ∧
    intersectPoint none = origin ∧
    (swell (hasIntersect none) (intersectPoint none) instZero hoverInit rngZero).targetScale
      = 1.95 ∧
    instZero.baseScale = 1.5 ∧
    activeCount hoverInit = 0 ∧
    activeCount
      (updateField (hasIntersect none) (intersectPoint none) [instZero] hoverInit rngZero).2.1
      = 1 ∧
    (animate none sceneZero).instances = [{ instZero with currentScale := 1.545 }] := by
  have hI : hasIntersect none = true := by
    norm_num [hasIntersect, intersectPoint, Vec3.lengthSq, fieldRadius]
  have hsw : swell true (intersectPoint none) instZero hoverInit rngZero
      = { targetScale := instZero.baseScale * 1.3,
          pool := (spawnHoverParticle instZero.x 2.0 instZero.z instZero.isHeart hoverInit
            rngZero.next.2).1,
          rng := (spawnHoverParticle instZero.x 2.0 instZero.z instZero.isHeart hoverInit
            rngZero.next.2).2 } := by
    have h1 : (instZero.x - (intersectPoint none).x) * (instZero.x - (intersectPoint none).x)
        + (instZero.z - (intersectPoint none).z) * (instZero.z - (intersectPoint none).z)
        < 625 := by
      norm_num [instZero, intersectPoint]
    have h2 : rngZero.next.1 < 0.05 := by norm_num [rngZero, Rng.next]
    simp only [swell, if_true, h1, h2]
  refine ⟨hI, rfl, ?_, rfl, hoverInit_activeCount, ?_, ?_⟩
  · rw [hI, hsw]; norm_num [instZero]
  · rw [hI]
    simp only [updateField, hsw]
    rw [spawn_count _ _ _ _ _ _ hoverInit_length, hoverInit_activeCount]
    simp [hoverCount]
  · simp only [animate, sceneZero, updateField_instances, List.map_cons, List.map_nil]
    rw [hI]
    have ht : targetScale true (intersectPoint none) instZero = 1.95 := by
      norm_num [targetScale, intersectPoint, instZero]
    rw [ht]
    norm_num [ease, instZero]

/-- C9: in every frame the field update replaces each instance `d` by the same
record with `currentScale := d.currentScale * 0.9 + targetScale * (1 - 0.9)`,
where `targetScale` is the value computed for `d` in this frame; the fields
`x`, `z`, `ry`, `baseScale`, `isHeart`, `id` and `mesh` are the same after the
frame as before it, and the number of instances is unchanged. -/
theorem C9_frame_scale_only (hit : Option Vec3) (st : Scene) :
    (animate hit st).instances
      = st.instances.map (fun d =>
          { d with currentScale :=
              d.currentScale * 0.9
                + targetScale (hasIntersect hit) (intersectPoint hit) d * (1 - 0.9) }) ∧
    (animate hit st).instances.length = st.instances.length ∧
    (∀ (i : Nat) (d : Instance), st.instances[i]? = some d →
      ∃ d1 : Instance, (animate hit st).instances[i]? = some d1 ∧
        d1.currentScale
          = d.currentScale * 0.9
              + (swell (hasIntersect hit) (intersectPoint hit) d st.hoverData st.rng).targetScale
                * (1 - 0.9) ∧
        d1.x = d.x ∧ d1.z = d.z ∧ d1.ry = d.ry ∧ d1.baseScale = d.baseScale ∧
        d1.isHeart = d.isHeart ∧ d1.id = d.id ∧ d1.mesh = d.mesh) := by
  have hmap : (animate hit st).instances
      = st.instances.map (fun d =>
          { d with currentScale :=
              d.currentScale * 0.9
                + targetScale (hasIntersect hit) (intersectPoint hit) d * (1 - 0.9) }) := by
    simp only [animate, updateField_instances]
    apply List.map_congr_left
    intro d _
    simp only [ease]
    norm_num
  refine ⟨hmap, ?_, ?_⟩
  · rw [hmap, List.length_map]
  · intro i d hd
    refine ⟨{ d with currentScale :=
        d.currentScale * 0.9
          + targetScale (hasIntersect hit) (intersectPoint hit) d * (1 - 0.9) },
      ?_, ?_, rfl, rfl, rfl, rfl, rfl, rfl, rfl⟩
    · rw [hmap, List.getElem?_map, hd]; rfl
    · simp only [swell_targetScale]

/-- C9 instantiated at the scene with one instance at the field centre. -/
theorem C9_frame_scale_only_witness :
    sceneZero.instances[0]? = some instZero ∧
    ∃ d1 : Instance, (animate none sceneZero).instances[0]? = some d1 ∧
      d1.currentScale
        = instZero.currentScale * 0.9
            + (swell (hasIntersect none) (intersectPoint none) instZero sceneZero.hoverData
                sceneZero.rng).targetScale * (1 - 0.9) ∧
      d1.x = instZero.x ∧ d1.z = instZero.z ∧ d1.ry = instZero.ry ∧
      d1.baseScale = instZero.baseScale ∧ d1.isHeart = instZero.isHeart ∧
      d1.id = instZero.id ∧ d1.mesh = instZero.mesh :=
  ⟨rfl, (C9_frame_scale_only none sceneZero).2.2 0 instZero rfl⟩

/-! ## Final reveal: proofs -/

theorem revealCall_adds_one (st : Reveal) (h1 : st.cameraTweens = 0)
    (h2 : st.modelLoads = 0) (h3 : st.fontLoads = 0) :
    modelCount (revealCall st) = modelCount st + 1 ∧
    (revealCall st).cameraTweens = 0 ∧ (revealCall st).modelLoads = 0 ∧
    (revealCall st).fontLoads = 0 := by
  cases hr : st.preloadedRose <;> cases hf : st.preloadedFont <;>
    simp [revealCall, triggerFinalReveal, cameraComplete, spawnFinalRose, load3DText,
      create3DText, setupFinalModel, modelLoadComplete, fontLoadComplete, modelCount,
      List.filter_append, List.filter_cons, h1, h2, h3, hr, hf]

theorem revealCalls_count : ∀ (n : Nat) (st : Reveal),
    st.cameraTweens = 0 → st.modelLoads = 0 → st.fontLoads = 0 →
    modelCount (revealCalls n st) = modelCount st + n := by
  intro n
  induction n with
  | zero => intro st _ _ _; rfl
  | succ n ih =>
    intro st h1 h2 h3
    obtain ⟨hc, k1, k2, k3⟩ := revealCall_adds_one st h1 h2 h3
    simp only [revealCalls]
    rw [ih (revealCall st) k1 k2 k3, hc]
    omega

/-- What the code does for any number of calls: each completed call of
`triggerFinalReveal()` runs `setupFinalModel` once more, so the count of
highlighted models among the scene children equals the number of completed
calls; nothing in the hooks makes a repeated call a no-op. -/
theorem revealCalls_modelCount_init (n : Nat) (rose font : Bool) :
    modelCount (revealCalls n (revealInit rose font)) = n := by
  have h := revealCalls_count n (revealInit rose font) rfl rfl rfl
  rw [h]
  simp [modelCount, revealInit]

/-- C8 (what the code does): with the model and the font preloaded, one
completed call of `triggerFinalReveal()` leaves one highlighted model in the
scene, and a second completed call adds a second one: the scene then holds two
highlighted models (objects 1 and 5) and `finalRoseMesh` refers to the second
only; the same count results when the fallback loads are used. -/
theorem C8_second_call_duplicates :
    modelCount (revealCalls 1 (revealInit true true)) = 1 ∧
    modelCount (revealCalls 2 (revealInit true true)) = 2 ∧
    modelUids (revealCalls 2 (revealInit true true)) = [1, 5] ∧
    (revealCalls 2 (revealInit true true)).finalRoseMesh = some 5 ∧
    modelCount (revealCalls 2 (revealInit false false)) = 2 := by
  decide

/-! ## Eased scale stays inside the swell band: proofs -/

theorem fieldStep_draws (M : MathFns) (N : Nat) (st : FieldState) :
    (fieldStep M N st).rng.draws = st.rng.draws := rfl

theorem fieldStep_scale (M : MathFns) (N : Nat) (st : FieldState)
    (hinv : ∀ d ∈ st.instances,
      d.currentScale = d.baseScale ∧ (st.rng.inUnit → 1.5 ≤ d.baseScale)) :
    ∀ d ∈ (fieldStep M N st).instances,
      d.currentScale = d.baseScale ∧ ((fieldStep M N st).rng.inUnit → 1.5 ≤ d.baseScale) := by
  intro d hd
  have hu : (fieldStep M N st).rng.inUnit ↔ st.rng.inUnit := Iff.rfl
  simp only [fieldStep, List.mem_append, List.mem_singleton] at hd
  rcases hd with hd | hd
  · exact ⟨(hinv d hd).1, fun h => (hinv d hd).2 (hu.1 h)⟩
  · subst hd
    refine ⟨rfl, fun h => ?_⟩
    have h0 := (hu.1 h (st.rng.pos + 1 + 1 + 1)).1
    simp only [Rng.next]
    norm_num
    exact h0

theorem fieldLoop_scale (M : MathFns) (N : Nat) :
    ∀ (k : Nat) (st : FieldState),
      (∀ d ∈ st.instances,
        d.currentScale = d.baseScale ∧ (st.rng.inUnit → 1.5 ≤ d.baseScale)) →
      ∀ d ∈ (fieldLoop M N k st).instances,
        d.currentScale = d.baseScale ∧ (st.rng.inUnit → 1.5 ≤ d.baseScale) := by
  intro k
  induction k with
  | zero => intro st h; exact h
  | succ k ih =>
    intro st h d hd
    have hstep := fieldStep_scale M N st h
    have := ih (fieldStep M N st) hstep d hd
    exact ⟨this.1, fun hu => this.2 hu⟩

theorem generate_scale (M : MathFns) (N : Nat) (rng : Rng) :
    ∀ d ∈ (generateField M N rng).instances,
      d.currentScale = d.baseScale ∧ (rng.inUnit → 1.5 ≤ d.baseScale) := by
  intro d hd
  exact fieldLoop_scale M N N { redC := 0, whiteC := 0, instances := [], rng := rng }
    (by intro e he; simp at he) d hd

theorem targetScale_cases (hasI : Bool) (p : Vec3) (d : Instance) :
    targetScale hasI p d = d.baseScale ∨ targetScale hasI p d = d.baseScale * 1.3 := by
  unfold targetScale
  split
  · split
    · right; rfl
    · left; rfl
  · left; rfl

theorem ease_band (d : Instance) (hasI : Bool) (p : Vec3) (hb : 0 ≤ d.baseScale)
    (hlo : d.baseScale ≤ d.currentScale) (hhi : d.currentScale ≤ 1.3 * d.baseScale) :
    d.baseScale ≤ (ease d (targetScale hasI p d)).currentScale ∧
    (ease d (targetScale hasI p d)).currentScale ≤ 1.3 * d.baseScale := by
  simp only [ease]
  rcases targetScale_cases hasI p d with h | h <;> rw [h] <;>
    constructor <;> norm_num at hhi ⊢ <;> linarith

theorem animate_instances (hit : Option Vec3) (st : Scene) :
    (animate hit st).instances
      = st.instances.map
          (fun d => ease d (targetScale (hasIntersect hit) (intersectPoint hit) d)) := by
  simp only [animate, updateField_instances]

theorem animate_band (hit : Option Vec3) (st : Scene)
    (h : ∀ d ∈ st.instances,
      0 ≤ d.baseScale ∧ d.baseScale ≤ d.currentScale ∧ d.currentScale ≤ 1.3 * d.baseScale) :
    ∀ d ∈ (animate hit st).instances,
      0 ≤ d.baseScale ∧ d.baseScale ≤ d.currentScale ∧ d.currentScale ≤ 1.3 * d.baseScale := by
  intro d hd
  rw [animate_instances, List.mem_map] at hd
  obtain ⟨e, he, rfl⟩ := hd
  obtain ⟨h0, h1, h2⟩ := h e he
  have hb := ease_band e (hasIntersect hit) (intersectPoint hit) h0 h1 h2
  exact ⟨h0, hb.1, hb.2⟩

theorem animateFrames_band : ∀ (hits : List (Option Vec3)) (st : Scene),
    (∀ d ∈ st.instances,
      0 ≤ d.baseScale ∧ d.baseScale ≤ d.currentScale ∧ d.currentScale ≤ 1.3 * d.baseScale) →
    ∀ d ∈ (animateFrames hits st).instances,
      0 ≤ d.baseScale ∧ d.baseScale ≤ d.currentScale ∧ d.currentScale ≤ 1.3 * d.baseScale := by
  intro hits
  induction hits with
  | nil => intro st h; exact h
  | cons hit hits ih =>
    intro st h
    exact ih (animate hit st) (animate_band hit st h)

theorem animateFrames_baseScale : ∀ (hits : List (Option Vec3)) (st : Scene),
    (animateFrames hits st).instances.map (fun d => d.baseScale)
      = st.instances.map (fun d => d.baseScale) := by
  intro hits
  induction hits with
  | nil => intro st; rfl
  | cons hit hits ih =>
    intro st
    simp only [animateFrames]
    rw [ih (animate hit st), animate_instances, List.map_map]
    rfl

/-- C11 (amended): in exact arithmetic, that is for the values lines 264 and
274 give without rounding, every instance the field generator stores has
`currentScale = baseScale` (and `baseScale >= 1.5 >= 0` when the draws lie in
`[0, 1)`); for instances that start with `currentScale = baseScale` and
`baseScale >= 0`, after every sequence of frames, whatever the
plane-intersection call yields in each frame and whatever the random draws,
every instance keeps its `baseScale` and has
`baseScale <= currentScale <= 1.3 * baseScale`; so this holds for the field the
generator built. -/
theorem C11_scale_band :
    (∀ (M : MathFns) (N : Nat) (rng : Rng), ∀ d ∈ (generateField M N rng).instances,
      d.currentScale = d.baseScale ∧ (rng.inUnit → 0 ≤ d.baseScale)) ∧
    (∀ (hits : List (Option Vec3)) (st : Scene),
      (∀ d ∈ st.instances, d.currentScale = d.baseScale ∧ 0 ≤ d.baseScale) →
      (animateFrames hits st).instances.map (fun d => d.baseScale)
        = st.instances.map (fun d => d.baseScale) ∧
      ∀ d ∈ (animateFrames hits st).instances,
        d.baseScale ≤ d.currentScale ∧ d.currentScale ≤ 1.3 * d.baseScale) ∧
    (∀ (M : MathFns) (N : Nat) (rng : Rng) (pool : List HoverSlot) (petals : List Petal)
        (g : Rng) (hits : List (Option Vec3)), rng.inUnit →
      ∀ d ∈ (animateFrames hits (sceneOfField M N rng pool petals g)).instances,
        d.baseScale ≤ d.currentScale ∧ d.currentScale ≤ 1.3 * d.baseScale) := by
  have hframes : ∀ (hits : List (Option Vec3)) (st : Scene),
      (∀ d ∈ st.instances, d.currentScale = d.baseScale ∧ 0 ≤ d.baseScale) →
      ∀ d ∈ (animateFrames hits st).instances,
        d.baseScale ≤ d.currentScale ∧ d.currentScale ≤ 1.3 * d.baseScale := by
    intro hits st h d hd
    have hstart : ∀ e ∈ st.instances,
        0 ≤ e.baseScale ∧ e.baseScale ≤ e.currentScale ∧
          e.currentScale ≤ 1.3 * e.baseScale := by
      intro e he
      obtain ⟨h1, h2⟩ := h e he
      refine ⟨h2, le_of_eq h1.symm, ?_⟩
      rw [h1]; norm_num; linarith
    exact (animateFrames_band hits st hstart d hd).2
  refine ⟨?_, ?_, ?_⟩
  · intro M N rng d hd
    have h := generate_scale M N rng d hd
    refine ⟨h.1, fun hu => ?_⟩
    have := h.2 hu
    norm_num at this
    linarith
  · intro hits st h
    exact ⟨animateFrames_baseScale hits st, hframes hits st h⟩
  · intro M N rng pool petals g hits hu d hd
    refine hframes hits (sceneOfField M N rng pool petals g) ?_ d hd
    intro e he
    have h := generate_scale M N rng e he
    refine ⟨h.1, ?_⟩
    have := h.2 hu
    norm_num at this
    linarith

/-- C11 (as stated, refuted on the doubles the program computes): the constants
are the doubles nearest to `0.9`, `0.1`, `1.3`; the draw `drawD` lies in
`[0, 1)` and line 135 gives it the base scale `base205`, the double nearest to
`2.05`; for an instance with this base scale that stays inside the swell radius,
`currentScale` after 314 frames is above `1.3 * baseScale`, and after 315 frames
it is also above the program's own product `baseScale * 1.3`. -/
theorem C11_upper_bound_overshoot :
    |d0_9.toRat - 9 / 10| < (2 : ℚ) ^ (-54 : ℤ) ∧
    |d0_1.toRat - 1 / 10| < (2 : ℚ) ^ (-57 : ℤ) ∧
    |d1_3.toRat - 13 / 10| < (2 : ℚ) ^ (-53 : ℤ) ∧
    |base205.toRat - 205 / 100| < (2 : ℚ) ^ (-52 : ℤ) ∧
    (0 ≤ drawD.toRat ∧ drawD.toRat < 1) ∧
    scaleD drawD = base205 ∧
    swellFramesD base205 314 base205 = { m := 6001046503471186, e := -51 } ∧
    swellFramesD base205 315 base205 = { m := 6001046503471187, e := -51 } ∧
    swellTargetD base205 = { m := 6001046503471186, e := -51 } ∧
    (13 / 10 : ℚ) * base205.toRat < (swellFramesD base205 314 base205).toRat ∧
    (swellTargetD base205).toRat < (swellFramesD base205 315 base205).toRat := by
  have h314 : swellFramesD base205 314 base205 = { m := 6001046503471186, e := -51 } := by
    decide!
  have h315 : swellFramesD base205 315 base205 = { m := 6001046503471187, e := -51 } := by
    decide!
  have ht : swellTargetD base205 = { m := 6001046503471186, e := -51 } := by
    decide!
  have hs : scaleD drawD = base205 := by
    decide!
  refine ⟨?_, ?_, ?_, ?_, ?_, hs, h314, h315, ht, ?_, ?_⟩
  · rw [abs_lt]; norm_num [Dbl.toRat, d0_9]
  · rw [abs_lt]; norm_num [Dbl.toRat, d0_1]
  · rw [abs_lt]; norm_num [Dbl.toRat, d1_3]
  · rw [abs_lt]; norm_num [Dbl.toRat, base205]
  · norm_num [Dbl.toRat, drawD]
  · rw [h314]; norm_num [Dbl.toRat, base205]
  · rw [h315, ht]; norm_num [Dbl.toRat]

/-- C11 instantiated at the field of one instance at the centre, with one frame
in which the plane-intersection call yields no point. -/
theorem C11_scale_band_witness :
    rngZero.inUnit ∧
    (animateFrames [none]
      (sceneOfField mathZero 1 rngZero hoverInit [] rngZero)).instances.length = 1 ∧
    ∀ d ∈ (animateFrames [none] (sceneOfField mathZero 1 rngZero hoverInit [] rngZero)).instances,
      d.baseScale ≤ d.currentScale ∧ d.currentScale ≤ 1.3 * d.baseScale :=
  ⟨rngZero_inUnit,
   by simp [animateFrames, animate_instances, sceneOfField, generate_one_zero],
   C11_scale_band.2.2 mathZero 1 rngZero hoverInit [] rngZero [none] rngZero_inUnit⟩

end Rose
